import Mathlib

/-!
# Verification of the Presence Shift companion core

Shallow embedding of the repository's core modules:

* `src/lib/configStore.ts` — ritual configuration versioning store
  (Prisma-backed; each Prisma call is modelled as one atomic
  transformation of an explicit database state, since the source issues
  the calls sequentially with `await` and uses no transaction).
* `src/lib/config.ts` — resolved-configuration cache (`getPresenceConfig`).
* `src/lib/promptBuilder.ts` — `buildPromptForStep`.
* `src/lib/safety.ts` — `checkForSafetyFlags`.
* `src/lib/sessionStore.ts` — in-memory session store.
* `src/app/api/chat/route.ts` — the POST /api/chat orchestrator.

Machine-level JSON values (`JSON.parse` results, `configJson` payloads)
are represented by an inductive `Json` type.
-/

set_option maxHeartbeats 1600000
set_option maxRecDepth 2000

namespace PresenceShift

/-- A JavaScript JSON value (result of `JSON.parse`, content of a `JSONB`
column, value of a notes entry). -/
inductive Json where
  | null : Json
  | bool (b : Bool) : Json
  | num (n : Int) : Json
  | str (s : String) : Json
  | arr (elems : List Json) : Json
  | obj (fields : List (String × Json)) : Json
deriving Repr

/-! ## Data model of the config store (prisma/migrations + configStore.ts)

`Ritual` and `RitualConfigVersion` rows.  Prisma's cuid string ids are
modelled as naturals drawn from a monotone counter `nextId`, which is all
the code relies on (opaque identity and freshness). -/

/-- A `Ritual` row (table `Ritual`, unique `slug`). -/
structure Ritual where
  id : Nat
  slug : String
  name : String
  description : Option String
deriving Repr, DecidableEq

/-- A `RitualConfigVersion` row. -/
structure RitualConfigVersion where
  id : Nat
  ritualId : Nat
  versionNumber : Nat
  isActive : Bool
  label : Option String
  notes : Option String
  configJson : Json
  createdBy : Option String
deriving Repr

/-- The relational store reachable through Prisma: both tables, plus the
id generator.  Row order of `versions` is insertion order. -/
structure DB where
  rituals : List Ritual
  versions : List RitualConfigVersion
  nextId : Nat
deriving Repr

/-- The store before any operation. -/
def DB.empty : DB := ⟨[], [], 0⟩

/-- All versions belonging to a ritual id, in insertion order. -/
def versionsOf (ritualId : Nat) (db : DB) : List RitualConfigVersion :=
  db.versions.filter (fun v => v.ritualId == ritualId)

/-- The versions of a ritual currently flagged active. -/
def activeVersionsOf (ritualId : Nat) (db : DB) : List RitualConfigVersion :=
  (versionsOf ritualId db).filter (fun v => v.isActive)

/-! ## configStore.ts operations

Each `await prisma.…` call of the source is one primitive below; the
exported operations are their sequential compositions, exactly in source
order.  The source wraps none of them in a transaction. -/

/-- Arguments of `ensureRitual` (configStore.ts). -/
structure EnsureRitualOpts where
  slug : String
  name : String
  description : Option String

/-- `prisma.ritual.upsert(\x7b where: \x7b slug \x7d, create, update \x7d)`:
update name/description of the row with this slug, or insert a fresh row.
Embeds `ensureRitual` of configStore.ts (a single Prisma call). -/
def ensureRitual (opts : EnsureRitualOpts) (db : DB) : Ritual × DB :=
  match db.rituals.find? (fun r => r.slug == opts.slug) with
  | some r =>
      let r' : Ritual := { r with name := opts.name, description := opts.description }
      (r', { db with rituals := db.rituals.map (fun q => if q.slug == opts.slug then r' else q) })
  | none =>
      let r : Ritual := ⟨db.nextId, opts.slug, opts.name, opts.description⟩
      (r, { db with rituals := db.rituals ++ [r], nextId := db.nextId + 1 })

/-- `prisma.ritualConfigVersion.aggregate(\x7b where: \x7b ritualId \x7d, _max: \x7b versionNumber \x7d \x7d)`
followed by `?? 0`: the largest version number for the ritual, 0 when none. -/
def maxVersionNumber (ritualId : Nat) (db : DB) : Nat :=
  (versionsOf ritualId db).foldr (fun v m => max v.versionNumber m) 0

/-- `prisma.ritualConfigVersion.updateMany(\x7b where: \x7b ritualId, isActive: true \x7d, data: \x7b isActive: false \x7d \x7d)`
— the deactivate-all step inside `createRitualConfigVersion`. -/
def deactivateActiveVersions (ritualId : Nat) (db : DB) : DB :=
  { db with versions := db.versions.map (fun v =>
      if v.ritualId == ritualId && v.isActive then { v with isActive := false } else v) }

/-- Column values passed to `prisma.ritualConfigVersion.create`. -/
structure NewVersionData where
  ritualId : Nat
  versionNumber : Nat
  isActive : Bool
  label : Option String
  notes : Option String
  configJson : Json
  createdBy : Option String

/-- `prisma.ritualConfigVersion.create(\x7b data \x7d)`: insert a fresh row
with a generated id. -/
def insertVersion (data : NewVersionData) (db : DB) : RitualConfigVersion × DB :=
  let v : RitualConfigVersion :=
    ⟨db.nextId, data.ritualId, data.versionNumber, data.isActive,
     data.label, data.notes, data.configJson, data.createdBy⟩
  (v, { db with versions := db.versions ++ [v], nextId := db.nextId + 1 })

/-- Arguments of `createRitualConfigVersion` (configStore.ts); the source
defaults `makeActive` to `true` when absent. -/
structure CreateVersionOpts where
  ritualSlug : String
  ritualName : String
  ritualDescription : Option String
  config : Json
  label : Option String
  notes : Option String
  createdBy : Option String
  makeActive : Bool
deriving Repr

/-- `createRitualConfigVersion` of configStore.ts: ensure the ritual,
read the max version number, if `makeActive` deactivate all active
versions of the ritual, then insert the new row.  Four sequential Prisma
calls, no transaction. -/
def createRitualConfigVersion (opts : CreateVersionOpts) (db : DB) :
    RitualConfigVersion × DB :=
  let edb := ensureRitual ⟨opts.ritualSlug, opts.ritualName, opts.ritualDescription⟩ db
  let ritual := edb.1
  let db1 := edb.2
  let nextVersionNumber := maxVersionNumber ritual.id db1 + 1
  let db2 := if opts.makeActive then deactivateActiveVersions ritual.id db1 else db1
  insertVersion
    ⟨ritual.id, nextVersionNumber, opts.makeActive, opts.label, opts.notes,
     opts.config, opts.createdBy⟩ db2

/-- `prisma.ritualConfigVersion.findUnique(\x7b where: \x7b id \x7d \x7d)`. -/
def findVersion (versionId : Nat) (db : DB) : Option RitualConfigVersion :=
  db.versions.find? (fun v => v.id == versionId)

/-- `prisma.ritual.findUnique(\x7b where: \x7b id \x7d \x7d)`. -/
def findRitualById (ritualId : Nat) (db : DB) : Option Ritual :=
  db.rituals.find? (fun r => r.id == ritualId)

/-- `prisma.ritualConfigVersion.updateMany(\x7b where: \x7b ritualId, id: \x7b not: versionId \x7d \x7d, data: \x7b isActive: false \x7d \x7d)`
— the deactivate-others step inside `activateRitualConfigVersion`. -/
def deactivateOtherVersions (ritualId versionId : Nat) (db : DB) : DB :=
  { db with versions := db.versions.map (fun v =>
      if v.ritualId == ritualId && v.id != versionId then { v with isActive := false } else v) }

/-- `prisma.ritualConfigVersion.update(\x7b where: \x7b id \x7d, data: \x7b isActive: true \x7d \x7d)`
— the mark-active step inside `activateRitualConfigVersion`. -/
def markVersionActive (versionId : Nat) (db : DB) : DB :=
  { db with versions := db.versions.map (fun v =>
      if v.id == versionId then { v with isActive := true } else v) }

/-- `activateRitualConfigVersion` of configStore.ts: look the version up
(`NotFound` error when absent, store untouched), deactivate every other
version of its ritual, then mark it active.  Three sequential Prisma
calls, no transaction. -/
def activateRitualConfigVersion (versionId : Nat) (db : DB) :
    Except String (RitualConfigVersion × DB) :=
  match findVersion versionId db with
  | none =>
      .error ("RitualConfigVersion with id \"" ++ toString versionId ++ "\" not found.")
  | some version =>
      let db1 := deactivateOtherVersions version.ritualId version.id db
      let db2 := markVersionActive version.id db1
      .ok ({ version with isActive := true }, db2)

/-- Arguments of `duplicateRitualConfigVersion` (configStore.ts); the
source defaults `makeActive` to `true` when absent. -/
structure DuplicateVersionOpts where
  sourceVersionId : Nat
  label : Option String
  notes : Option String
  createdBy : Option String
  makeActive : Bool
deriving Repr

/-- `duplicateRitualConfigVersion` of configStore.ts: resolve the source
version and its ritual (`NotFound` errors, store untouched), then call
`createRitualConfigVersion` with the source's `configJson` and the label
defaulted to "Copy of v<sourceVersionNumber>". -/
def duplicateRitualConfigVersion (opts : DuplicateVersionOpts) (db : DB) :
    Except String (RitualConfigVersion × DB) :=
  match findVersion opts.sourceVersionId db with
  | none =>
      .error ("Cannot duplicate config: source version \"" ++
        toString opts.sourceVersionId ++ "\" not found.")
  | some source =>
      match findRitualById source.ritualId db with
      | none =>
          .error ("Inconsistent data: ritual \"" ++ toString source.ritualId ++
            "\" not found for version \"" ++ toString source.id ++ "\".")
      | some ritual =>
          .ok (createRitualConfigVersion
            { ritualSlug := ritual.slug
              ritualName := ritual.name
              ritualDescription := ritual.description
              config := source.configJson
              label := some (opts.label.getD ("Copy of v" ++ toString source.versionNumber))
              notes := opts.notes
              createdBy := opts.createdBy
              makeActive := opts.makeActive } db)

/-- `getRitualVersions` of configStore.ts: versions of the ritual with
this slug, newest `versionNumber` first; `[]` when the ritual is absent. -/
def getRitualVersions (ritualSlug : String) (db : DB) : List RitualConfigVersion :=
  match db.rituals.find? (fun r => r.slug == ritualSlug) with
  | none => []
  | some ritual =>
      (versionsOf ritual.id db).mergeSort (fun a b => b.versionNumber ≤ a.versionNumber)

/-! ## Sequential operation sequences over the store -/

/-- One completed sequential store operation. -/
inductive StoreOp where
  | create (opts : CreateVersionOpts)
  | activate (versionId : Nat)
  | dup (opts : DuplicateVersionOpts)

/-- Apply one operation to the store; a failed (`NotFound`) operation
leaves the store unchanged (the source throws before any write). -/
def applyOp (op : StoreOp) (db : DB) : DB :=
  match op with
  | .create opts => (createRitualConfigVersion opts db).2
  | .activate vid =>
      match activateRitualConfigVersion vid db with
      | .ok (_, db') => db'
      | .error _ => db
  | .dup opts =>
      match duplicateRitualConfigVersion opts db with
      | .ok (_, db') => db'
      | .error _ => db

/-- Run a sequence of operations from the empty store, each completing
before the next begins. -/
def runOps (ops : List StoreOp) : DB :=
  ops.foldl (fun db op => applyOp op db) DB.empty

/-! ## Presence steps (src/lib/types.ts) -/

/-- The six session steps of the state machine. -/
inductive PresenceStep where
  | ANSWER
  | INTEND
  | FOCUS
  | FLOW
  | BEGIN
  | DONE
deriving Repr, DecidableEq

/-- The string literal of a step (the TS type is a union of these). -/
def PresenceStep.toString : PresenceStep → String
  | .ANSWER => "ANSWER"
  | .INTEND => "INTEND"
  | .FOCUS => "FOCUS"
  | .FLOW => "FLOW"
  | .BEGIN => "BEGIN"
  | .DONE => "DONE"

/-- The inverse of `PresenceStep.toString`: `some` exactly on the six
literals of route.ts's `validSteps` list. -/
def stepOfString : String → Option PresenceStep
  | "ANSWER" => some .ANSWER
  | "INTEND" => some .INTEND
  | "FOCUS" => some .FOCUS
  | "FLOW" => some .FLOW
  | "BEGIN" => some .BEGIN
  | "DONE" => some .DONE
  | _ => none

/-! ## Resolved configuration (shape consumed by config.ts users)

Every access in promptBuilder.ts / safety.ts goes through optional
chaining (`?.`) with a `??` default, so each such field is an `Option`.
The TS keys `do` / `dont` are reserved words in Lean and appear here as
`doRules` / `dontRules`. -/

/-- `brandVoice.guidelines` of the configuration payload. -/
structure BrandGuidelines where
  doRules : Option (List String)
  dontRules : Option (List String)
deriving Repr

/-- `brandVoice` of the configuration payload. -/
structure BrandVoice where
  tone : Option String
  guidelines : Option BrandGuidelines
deriving Repr

/-- `safety` of the configuration payload. -/
structure SafetyConfig where
  disclaimer : Option String
  crisisTemplate : Option String
  keywords : Option (List String)
deriving Repr

/-- One entry of the `steps` map (only `description` and `script` are
ever read by the prompt builder). -/
structure StepConfig where
  description : String
  script : String
deriving Repr

/-- The resolved configuration value returned by `getPresenceConfig`. -/
structure PresenceConfig where
  brandVoice : Option BrandVoice
  safety : Option SafetyConfig
  steps : List (String × StepConfig)
deriving Repr

/-! ## Safety scanner (src/lib/safety.ts) -/

/-- JavaScript `s.toLowerCase()` (ASCII case mapping, which covers every
string the sources compare). -/
def jsToLower (s : String) : String :=
  ⟨s.data.map Char.toLower⟩

/-- JavaScript `s.trim()`: strip leading and trailing whitespace (ASCII
whitespace, which covers the configured texts). -/
def jsTrim (s : String) : String :=
  ⟨((s.data.dropWhile Char.isWhitespace).reverse.dropWhile Char.isWhitespace).reverse⟩

/-- JavaScript `s.substring(0, n)`: the first `n` characters. -/
def jsSubstring0 (s : String) (n : Nat) : String :=
  ⟨s.data.take n⟩

/-- `chars1.startsWith chars2` on character lists. -/
def charsStartWith : List Char → List Char → Bool
  | _, [] => true
  | [], _ :: _ => false
  | a :: as, b :: bs => a == b && charsStartWith as bs

/-- `hay` has `needle` as a contiguous sublist. -/
def charsInclude : List Char → List Char → Bool
  | [], needle => needle.isEmpty
  | a :: t, needle => charsStartWith (a :: t) needle || charsInclude t needle

/-- JavaScript `hay.includes(needle)` (substring containment). -/
def strIncludes (hay needle : String) : Bool :=
  charsInclude hay.toList needle.toList

/-- `SafetyResult` of safety.ts. -/
structure SafetyResult where
  flagged : Bool
  responseText : Option String
deriving Repr

/-- The hard-coded crisis fallback of safety.ts (byte-identical to the
`??` fallback in route.ts's flagged branch). -/
def safetyFallbackMessage : String :=
  "It sounds like you might be going through something very intense. I’m not able to help with crises or safety concerns. If you’re in immediate danger, please contact your local emergency number or a crisis line right away."

/-- `checkForSafetyFlags` of safety.ts.  The source reads the config via
`getPresenceConfig()`; the resolved value is passed here explicitly.
Lower-casing is ASCII (all configured keywords are ASCII). -/
def checkForSafetyFlags (config : PresenceConfig) (text : String) : SafetyResult :=
  let lowered := jsToLower text
  let keywords := (config.safety.bind (fun s => s.keywords)).getD []
  match keywords.find? (fun kw => strIncludes lowered (jsToLower kw)) with
  | some _ =>
      let crisisTemplate := ((config.safety.bind (fun s => s.crisisTemplate)).map jsTrim).getD ""
      let disclaimer := ((config.safety.bind (fun s => s.disclaimer)).map jsTrim).getD ""
      let parts := [crisisTemplate, disclaimer].filter (fun p => p != "")
      let response := String.intercalate "\n\n" parts
      { flagged := true
        responseText := some (if response == "" then safetyFallbackMessage else response) }
  | none => { flagged := false, responseText := none }

/-! ## Session state and store (src/lib/types.ts, src/lib/sessionStore.ts) -/

/-- `SessionState` of types.ts.  `notes` values are written from oracle
JSON, so they are `Json` at runtime. -/
structure SessionState where
  sessionId : String
  currentStep : PresenceStep
  createdAt : String
  updatedAt : String
  userFeelingRaw : Option String
  userFeelingSummary : Option String
  nextActivityRaw : Option String
  nextActivitySummary : Option String
  notes : List (String × Json)
deriving Repr

/-- The in-memory `Map<string, SessionState>` of sessionStore.ts,
as an association list in insertion order. -/
abbrev SessionStore := List (String × SessionState)

/-- `getSessionState`: `sessions.get(sessionId) ?? null`. -/
def getSessionState (sessionId : String) (store : SessionStore) : Option SessionState :=
  (store.find? (fun e => e.1 == sessionId)).map (fun e => e.2)

/-- `saveSessionState`: `sessions.set(session.sessionId, session)` —
overwrite the existing entry or append a new one. -/
def saveSessionState (session : SessionState) (store : SessionStore) : SessionStore :=
  if (store.find? (fun e => e.1 == session.sessionId)).isSome then
    store.map (fun e => if e.1 == session.sessionId then (session.sessionId, session) else e)
  else
    store ++ [(session.sessionId, session)]

/-- `deleteSessionState`: `sessions.delete(sessionId)`. -/
def deleteSessionState (sessionId : String) (store : SessionStore) : SessionStore :=
  store.filter (fun e => e.1 != sessionId)

/-! ## Prompt builder (src/lib/promptBuilder.ts)

The template literals are transcribed byte-for-byte; `\x7b`/`\x7d` are
literal braces and `\x27` literal apostrophes. -/

/-- The no-op notice `buildPromptForStep` returns for a `DONE` session:
`JSON.stringify` of the error object in its source. -/
def donePromptNotice : String :=
  "\x7b\"error\":\"The Presence Shift session is already complete. No further model output is required.\"\x7d"

/-- The `systemPart` template of promptBuilder.ts. -/
def promptSystemPart (brandTone doGuidelines dontGuidelines : String) : String :=
  jsTrim ("\nYou are the Presence Shift Companion, a calm, structured presence coach.\nYou always guide users through The Presence Shift®: Answer → Intend → Focus → Flow → Begin.\nYou are not a therapist and do not provide diagnosis, treatment, or crisis support.\n\nTone and style:\n- Overall tone: "
    ++ brandTone ++ "\n- Do: " ++ doGuidelines ++ "\n- Don\x27t: " ++ dontGuidelines
    ++ "\n\nAlways:\n- Keep responses short and suitable for a 2–5 minute interaction.\n- Ask exactly one focused question OR invite exactly one micro-action at the end.\n- Use simple, everyday language without jargon.\n- Normalize experience without pathologizing.\n  ")

/-- The `stepPart` template of promptBuilder.ts. -/
def promptStepPart (step : PresenceStep) (stepConfig : StepConfig)
    (feelingSummary nextActivitySummary userMessage : String) : String :=
  jsTrim ("\nCurrent Presence Shift step: " ++ step.toString
    ++ "\nStep description: " ++ stepConfig.description
    ++ "\nStep script (guidelines): " ++ stepConfig.script
    ++ "\n\nUser feeling summary (first description of how their day feels, if any):\n"
    ++ (if feelingSummary == "" then "(none yet)" else feelingSummary)
    ++ "\n\nNext activity summary (what\x27s next in their day, if any):\n"
    ++ (if nextActivitySummary == "" then "(none yet)" else nextActivitySummary)
    ++ "\n\nUser\x27s latest message:\n\"" ++ userMessage ++ "\"\n  ")

/-- The fixed `transitionRules` template of promptBuilder.ts. -/
def promptTransitionRules : String :=
  jsTrim ("\nStep transition rules:\n- Valid forward transitions:\n  - ANSWER → INTEND\n  - INTEND → FOCUS\n  - FOCUS → FLOW\n  - FLOW → BEGIN\n  - BEGIN → DONE\n- You may keep the same step for one or two short exchanges if it feels helpful.\n- Do NOT go backward to a previous step.\n- Do NOT skip more than one step forward at a time.\n- Only move to DONE from BEGIN (or if the user clearly indicates they are finished).\n  ")

/-- The fixed `taskPart` template of promptBuilder.ts. -/
def promptTaskPart : String :=
  jsTrim ("\nYour task:\n1. Respond in the brand voice and within the current step\x27s description and script.\n2. Focus on the present moment and the user\x27s next small step, not on analyzing their past.\n3. Ask exactly ONE clear question or invite ONE micro-action at the end of your message.\n4. Decide whether to:\n   - Stay in the current step, or\n   - Move forward to the next step as described in the transition rules.\n\n!!CRITICAL OUTPUT FORMAT REQUIREMENTS!!\n\nYOU MUST OUTPUT ONLY VALID JSON. NO EXPLANATIONS. NO MARKDOWN. NO TEXT BEFORE OR AFTER THE JSON.\n\nYour entire response must be a single JSON object with this EXACT structure:\n\n\x7b\n  \"assistantMessage\": \"your message to the user, plain text\",\n  \"nextStep\": \"ANSWER\",\n  \"notesUpdate\": \x7b\n    \"answer\": \"brief note\"\n  \x7d\n\x7d\n\nVALID nextStep VALUES ONLY: \"ANSWER\", \"INTEND\", \"FOCUS\", \"FLOW\", \"BEGIN\", \"DONE\"\n\nExample response for ANSWER step:\n\x7b\n  \"assistantMessage\": \"It\x27s okay to feel stressed. That makes sense. Stress can show up in different ways. What feels most present for you right now—in your body, in your emotions, or in your thoughts?\",\n  \"nextStep\": \"ANSWER\",\n  \"notesUpdate\": \x7b\n    \"answer\": \"stressed\"\n  \x7d\n\x7d\n\nExample response transitioning to INTEND:\n\x7b\n  \"assistantMessage\": \"I hear you. You\x27re feeling scattered and there\x27s a lot of pressure. Before you step into your client session, what would help you feel most present? What\x27s one intention you\x27d like to set?\",\n  \"nextStep\": \"INTEND\",\n  \"notesUpdate\": \x7b\n    \"answer\": \"scattered, pressured before client work\"\n  \x7d\n\x7d\n\nGuidelines for JSON fields:\n- \"assistantMessage\": A short, compassionate response (2-4 sentences) that reflects what the user shared and ends with ONE clear question or micro-instruction. Use plain text only, no markdown.\n- \"nextStep\": Must be one of the valid step values listed above, following the transition rules.\n- \"notesUpdate\": Optional object with brief notes about what the user expressed in this exchange.\n\nREMEMBER: Output ONLY the JSON object. Nothing else.\n  ")

/-- `buildPromptForStep` of promptBuilder.ts.  The source reads the
config via `getPresenceConfig()`; the resolved value is passed here
explicitly. -/
def buildPromptForStep (config : PresenceConfig) (step : PresenceStep)
    (session : SessionState) (userMessage : String) : String :=
  if step == .DONE then
    donePromptNotice
  else
    match config.steps.find? (fun e => e.1 == step.toString) with
    | none => "\x7b\"error\":\"Unknown Presence Shift step: " ++ step.toString ++ "\"\x7d"
    | some (_, stepConfig) =>
      let brandTone := (config.brandVoice.bind (fun b => b.tone)).getD "calm, grounded, warm"
      let doGuidelines :=
        (((config.brandVoice.bind (fun b => b.guidelines)).bind (fun g => g.doRules)).map
          (String.intercalate "; ")).getD
          "Use short, simple sentences; invite, don’t command; stay present-focused."
      let dontGuidelines :=
        (((config.brandVoice.bind (fun b => b.guidelines)).bind (fun g => g.dontRules)).map
          (String.intercalate "; ")).getD
          "Do not diagnose; do not promise outcomes; do not offer crisis support."
      let feelingSummary := session.userFeelingRaw.getD ""
      let nextActivitySummary := session.nextActivityRaw.getD ""
      jsTrim ("\nSYSTEM:\n" ++ promptSystemPart brandTone doGuidelines dontGuidelines
        ++ "\n\nCONTEXT:\n" ++ promptStepPart step stepConfig feelingSummary nextActivitySummary userMessage
        ++ "\n\nRULES:\n" ++ promptTransitionRules
        ++ "\n\nTASK:\n" ++ promptTaskPart ++ "\n  ")

/-! ## Chat orchestrator (src/app/api/chat/route.ts)

One inbound turn is split at its oracle suspension point:
`chatPreOracle` is everything before `openai.chat.completions.create`,
`chatWithOracle` everything after.  The outcome of the external call
(`OracleOutcome`) carries the raw `choices[0]?.message?.content` value
and, alongside it, the result of the external `JSON.parse` primitive on
that text (`none` models a parse error). -/

/-- The parsed request body (`ChatRequestBody`). -/
structure ChatRequestBody where
  sessionId : String
  userMessage : String
  nextActivity : Option String
deriving Repr

/-- The response body of a successful turn (`ChatResponseBody`). -/
structure ChatResponseBody where
  assistantMessage : String
  currentStep : PresenceStep
  done : Bool
deriving Repr, DecidableEq

/-- A `NextResponse.json` value: an error payload or a chat payload,
with its HTTP status. -/
inductive ApiResult where
  | errorResp (error : String) (status : Nat)
  | chat (body : ChatResponseBody) (status : Nat)
deriving Repr, DecidableEq

/-- Where a turn stands when control reaches the oracle call site. -/
inductive TurnPhase where
  /-- The handler returned before invoking the oracle; the session store
  as left behind. -/
  | finished (result : ApiResult) (store : SessionStore)
  /-- The handler is about to invoke the oracle with this prompt;
  `session` is the in-memory session at that point. -/
  | callOracle (session : SessionState) (prompt : String)
deriving Repr

/-- JavaScript falsiness of an optional string field (`undefined` or `""`). -/
def optStrFalsy : Option String → Bool
  | none => true
  | some s => s == ""

/-- The fresh session route.ts builds when the store has no entry for
the request's session id. -/
def newSessionFor (sessionId now : String) : SessionState :=
  { sessionId := sessionId, currentStep := .ANSWER
    createdAt := now, updatedAt := now
    userFeelingRaw := none, userFeelingSummary := none
    nextActivityRaw := none, nextActivitySummary := none, notes := [] }

/-- The first-write of `nextActivityRaw` (route.ts, before the safety
scan): `if (!session.nextActivityRaw && typeof nextActivity === "string")`. -/
def captureNextActivity (session : SessionState) (req : ChatRequestBody) : SessionState :=
  if optStrFalsy session.nextActivityRaw && req.nextActivity.isSome then
    { session with nextActivityRaw := req.nextActivity }
  else session

/-- The first-write of `userFeelingRaw` (route.ts, after the safety
scan): `if (!session.userFeelingRaw)`. -/
def captureUserFeeling (session : SessionState) (userMessage : String) : SessionState :=
  if optStrFalsy session.userFeelingRaw then
    { session with userFeelingRaw := some userMessage }
  else session

/-- route.ts up to (but excluding) the OpenAI call: env guard, body
validation, load-or-create session, first-write of `nextActivityRaw`,
safety scan (flagged: force `DONE`, persist, respond), first-write of
`userFeelingRaw`, prompt build.  `now` stands for
`new Date().toISOString()`. -/
def chatPreOracle (config : PresenceConfig) (store : SessionStore)
    (req : ChatRequestBody) (now : String) (apiKeySet : Bool) : TurnPhase :=
  if !apiKeySet then
    .finished (.errorResp "Server is not configured with an OpenAI API key. Please set OPENAI_API_KEY." 500) store
  else if req.sessionId == "" then
    .finished (.errorResp "Missing or invalid \x27sessionId\x27." 400) store
  else if req.userMessage == "" then
    .finished (.errorResp "Missing or invalid \x27userMessage\x27." 400) store
  else
    let session0 : SessionState :=
      (getSessionState req.sessionId store).getD (newSessionFor req.sessionId now)
    let session1 := captureNextActivity session0 req
    let safety := checkForSafetyFlags config req.userMessage
    if safety.flagged then
      let session2 := { session1 with currentStep := .DONE, updatedAt := now }
      .finished
        (.chat
          { assistantMessage := safety.responseText.getD safetyFallbackMessage
            currentStep := session2.currentStep
            done := true } 200)
        (saveSessionState session2 store)
    else
      let session2 := captureUserFeeling session1 req.userMessage
      .callOracle session2 (buildPromptForStep config session2.currentStep session2 req.userMessage)

/-- The outcome of the awaited OpenAI call plus the external
`JSON.parse`. -/
inductive OracleOutcome where
  /-- the API call rejected (network error, timeout, quota, …) -/
  | apiError
  /-- the call returned; `content` is `choices[0]?.message?.content` when
  that is a string (`none` otherwise), `parsed` is the `JSON.parse`
  result on it (`none` models a thrown `SyntaxError`). -/
  | completion (content : Option String) (parsed : Option Json)

/-- The fixed apology used when the OpenAI call fails (route.ts). -/
def oracleFailureMessage : String :=
  "Something went wrong on my side, so I’ll pause this Presence Shift here. You can refresh the page to begin again later if you’d like."

/-- The fixed fallback used when the computed assistant message is empty
(route.ts final response). -/
def pauseFallbackMessage : String :=
  "I’ll pause here for now. You can refresh the page to begin a new Presence Shift when you’re ready."

/-- JavaScript property access `j.key` on a `JSON.parse` result
(`undefined`, i.e. `none`, on non-objects and missing keys). -/
def Json.getField : Json → String → Option Json
  | .obj fields, key => (fields.find? (fun f => f.1 == key)).map (fun f => f.2)
  | _, _ => none

/-- The validated oracle reply: the inner `try` of route.ts. -/
structure ParsedTurn where
  assistantMessage : String
  nextStep : PresenceStep
  notesUpdate : Option Json

/-- Field validation of the parsed oracle JSON (route.ts inner `try`):
`assistantMessage` and `nextStep` must be truthy strings (else the code
throws into the salvage branch); a `nextStep` outside `validSteps` is
replaced by the session's current step. -/
def validateOracleJson (j : Json) (currentStep : PresenceStep) : Option ParsedTurn :=
  match j.getField "assistantMessage", j.getField "nextStep" with
  | some (.str am), some (.str ns) =>
      if am == "" || ns == "" then none
      else
        some { assistantMessage := am
               nextStep := (stepOfString ns).getD currentStep
               notesUpdate := j.getField "notesUpdate" }
  | _, _ => none

/-- The own enumerable entries object-spread takes from a notes update:
objects contribute their fields, arrays their indexed elements; any
other value (or `null`, which is falsy) is skipped by the
`notesUpdate && typeof notesUpdate === "object"` guard. -/
def notesObjectEntries : Json → Option (List (String × Json))
  | .obj fields => some fields
  | .arr elems => some (elems.enum.map (fun e => ((ToString.toString e.1), e.2)))
  | _ => none

/-- JavaScript object spread `\x7b ...base, ...upd \x7d`: keys already in
`base` are overwritten in place, new keys appended in order. -/
def mergeNotes (base : List (String × Json)) : List (String × Json) → List (String × Json)
  | [] => base
  | (k, v) :: rest =>
      let base' :=
        if (base.find? (fun e => e.1 == k)).isSome then
          base.map (fun e => if e.1 == k then (k, v) else e)
        else base ++ [(k, v)]
      mergeNotes base' rest

/-- The `(assistantMessage, nextStep, notesUpdate)` triple route.ts's
`try/catch` pair computes from the oracle outcome: the apology + `DONE`
on a failed call or empty text, the truncated-and-trimmed raw text +
`DONE` when the JSON cannot be salvaged, the validated fields otherwise. -/
def oracleComputed (session : SessionState) (outcome : OracleOutcome) :
    String × PresenceStep × Option Json :=
  match outcome with
  | .apiError => (oracleFailureMessage, .DONE, none)
  | .completion content parsed =>
      let textContent := content.getD ""
      if textContent == "" then
        (oracleFailureMessage, .DONE, none)
      else
        match parsed.bind (fun j => validateOracleJson j session.currentStep) with
        | some p => (jsTrim p.assistantMessage, p.nextStep, p.notesUpdate)
        | none => (jsTrim (jsSubstring0 textContent 500), .DONE, none)

/-- route.ts from the OpenAI call to the response: the `try/catch` pair
(via `oracleComputed`), notes merge, step update, persist, and the 200
response with the empty-message fallback. -/
def chatWithOracle (session : SessionState) (store : SessionStore)
    (outcome : OracleOutcome) (now : String) : ApiResult × SessionStore :=
  let computed := oracleComputed session outcome
  let assistantMessage := computed.1
  let nextStep := computed.2.1
  let notesUpdate := computed.2.2
  let session1 :=
    match notesUpdate.bind notesObjectEntries with
    | some entries => { session with notes := mergeNotes session.notes entries }
    | none => session
  let session2 := { session1 with currentStep := nextStep, updatedAt := now }
  let done := nextStep == .DONE
  (.chat
    { assistantMessage := if assistantMessage == "" then pauseFallbackMessage else assistantMessage
      currentStep := session2.currentStep
      done := done } 200,
   saveSessionState session2 store)

/-- The whole POST /api/chat handler for one turn. -/
def chatPOST (config : PresenceConfig) (store : SessionStore) (req : ChatRequestBody)
    (now : String) (apiKeySet : Bool) (outcome : OracleOutcome) : ApiResult × SessionStore :=
  match chatPreOracle config store req now apiKeySet with
  | .finished result store' => (result, store')
  | .callOracle session _prompt => chatWithOracle session store outcome now

/-- Whether a turn reaches `openai.chat.completions.create`. -/
def chatInvokesOracle (config : PresenceConfig) (store : SessionStore)
    (req : ChatRequestBody) (now : String) (apiKeySet : Bool) : Bool :=
  match chatPreOracle config store req now apiKeySet with
  | .callOracle _ _ => true
  | .finished _ _ => false

/-! ## Resolved-config cache (src/lib/config.ts)

`getPresenceConfig` is synchronous.  Its one module-level variable is
`cachedConfig`; the bundled `presenceShift.json` default is a parameter
(the file is not part of the core sources). -/

/-- The module state of config.ts. -/
structure ResolverState where
  cachedConfig : Option PresenceConfig

/-- What one synchronous `getPresenceConfig()` call produces. -/
structure ResolveOutcome where
  result : PresenceConfig
  state : ResolverState
  startedBackgroundFetch : Bool

/-- `getPresenceConfig` of config.ts.  With an empty cache in production
the source runs `void getActiveRitualConfig(slug).then(...)`: the fetch
is started but not awaited, so the synchronous path continues with the
cache still empty, caches the bundled default and returns it.  The
`try/catch` around that statement can only catch a synchronous throw,
which calling an `async` function never produces. -/
def getPresenceConfig (isProduction : Bool) (bundledDefault : PresenceConfig)
    (st : ResolverState) : ResolveOutcome :=
  match st.cachedConfig with
  | some c => ⟨c, st, false⟩
  | none =>
      if isProduction then ⟨bundledDefault, ⟨some bundledDefault⟩, true⟩
      else ⟨bundledDefault, ⟨some bundledDefault⟩, false⟩

/-- The later fulfilment of the background fetch: the `.then` callback
overwrites the cache with the fetched active config; a rejected promise
has no handler attached, so the cache is left unchanged. -/
def backgroundFetchCompletes (outcome : Except String PresenceConfig)
    (st : ResolverState) : ResolverState :=
  match outcome with
  | .ok cfg => ⟨some cfg⟩
  | .error _ => st

/-! ## Claim-level predicates and concrete scenarios -/

/-- The ritual ids that own at least one version row. -/
def ritualIdsOf (db : DB) : List Nat :=
  db.versions.map (fun v => v.ritualId)

/-- Every ritual has at most one active version. -/
def atMostOneActive (db : DB) : Prop :=
  ∀ rid ∈ ritualIdsOf db, (activeVersionsOf rid db).length ≤ 1

/-- All row ids and foreign keys were drawn from the id counter. -/
def boundedIds (db : DB) : Prop :=
  (∀ r ∈ db.rituals, r.id < db.nextId) ∧
  (∀ v ∈ db.versions, v.id < db.nextId ∧ v.ritualId < db.nextId)

/-- Version ids are pairwise distinct (primary key). -/
def nodupVersionIds (db : DB) : Prop :=
  (db.versions.map (fun v => v.id)).Nodup

/-- Ritual slugs are pairwise distinct (unique index `Ritual_slug_key`). -/
def nodupSlugs (db : DB) : Prop :=
  (db.rituals.map (fun r => r.slug)).Nodup

/-- Per ritual, the version numbers in insertion order are exactly
`1, 2, …, k`. -/
def numbersSeq (db : DB) : Prop :=
  ∀ rid ∈ ritualIdsOf db,
    (versionsOf rid db).map (fun v => v.versionNumber)
      = List.range' 1 (versionsOf rid db).length

/-- The reachable-state invariant of the store under sequential use. -/
def Invariant (db : DB) : Prop :=
  boundedIds db ∧ nodupVersionIds db ∧ nodupSlugs db ∧ numbersSeq db ∧ atMostOneActive db

/-- `createRitualConfigVersion` arguments for the default ritual (used by
concrete scenarios; payload content is irrelevant to the invariants). -/
def sampleCreateOpts (makeActive : Bool) : CreateVersionOpts :=
  { ritualSlug := "ps1_foundation"
    ritualName := "Presence Shift"
    ritualDescription := none
    config := Json.obj [("brandVoice", Json.obj [("tone", Json.str "calm")])]
    label := none
    notes := none
    createdBy := none
    makeActive := makeActive }

/-- A store holding one ritual (id 0) with two versions: id 1
(`versionNumber` 1, inactive) and id 2 (`versionNumber` 2, active) —
the state after two sequential `createVersion(makeActive=true)` calls. -/
def twoVersionDB : DB :=
  runOps [.create (sampleCreateOpts true), .create (sampleCreateOpts true)]

/-- The store left behind by two `activateRitualConfigVersion` calls —
call A on version 1, call B on version 2 — whose awaited Prisma calls
interleave as: A `findUnique`, B `findUnique`, A `updateMany`
(deactivate others), B `updateMany` (deactivate others), A `update`
(mark active), B `update` (mark active).  Nothing in configStore.ts
serializes the two calls: each `await` is a suspension point, so this
interleaving is schedulable. -/
def racedActivationDB : DB :=
  match findVersion 1 twoVersionDB, findVersion 2 twoVersionDB with
  | some vA, some vB =>
      markVersionActive vB.id
        (markVersionActive vA.id
          (deactivateOtherVersions vB.ritualId vB.id
            (deactivateOtherVersions vA.ritualId vA.id twoVersionDB)))
  | _, _ => twoVersionDB

/-- The crisis text the safety branch responds with, as computed by
safety.ts: trimmed `crisisTemplate` and trimmed `disclaimer` joined by a
blank line (skipping parts that trim to empty), or the hard-coded
fallback when both do. -/
def crisisResponseText (config : PresenceConfig) : String :=
  let crisisTemplate := ((config.safety.bind (fun s => s.crisisTemplate)).map jsTrim).getD ""
  let disclaimer := ((config.safety.bind (fun s => s.disclaimer)).map jsTrim).getD ""
  let response := String.intercalate "\n\n" ([crisisTemplate, disclaimer].filter (fun p => p != ""))
  if response == "" then safetyFallbackMessage else response

/-- The chat payload of an `ApiResult`, when it is one. -/
def ApiResult.chatBody? : ApiResult → Option ChatResponseBody
  | .chat body _ => some body
  | .errorResp _ _ => none

/-- A configuration with one safety keyword, a crisis template carrying
a trailing space, and an empty disclaimer (concrete scenario for the
safety-path claims). -/
def keywordConfig : PresenceConfig :=
  { brandVoice := none
    safety := some
      { disclaimer := some ""
        crisisTemplate := some "Please reach out. "
        keywords := some ["hopeless"] }
    steps := [] }

/-- A configuration with no safety block at all (no keyword ever
matches). -/
def plainConfig : PresenceConfig :=
  { brandVoice := none, safety := none, steps := [] }

/-- A session already at `DONE` (concrete scenario for the terminal-step
claims). -/
def doneSession : SessionState :=
  { sessionId := "s1"
    currentStep := .DONE
    createdAt := "2025-01-01T00:00:00.000Z"
    updatedAt := "2025-01-01T00:00:00.000Z"
    userFeelingRaw := some "tense"
    userFeelingSummary := none
    nextActivityRaw := some "deep work"
    nextActivitySummary := none
    notes := [] }

/-! ## General list lemmas -/

theorem find?_map_eq {α : Type} (l : List α) (g : α → α) (p : α → Bool)
    (hp : ∀ a ∈ l, p (g a) = p a ∧ (p a = true → g a = a)) :
    (l.map g).find? p = l.find? p := by
  induction l with
  | nil => rfl
  | cons a t ih =>
      have ha := hp a (List.mem_cons_self a t)
      rw [List.map_cons, List.find?_cons, List.find?_cons, ha.1]
      cases h : p a with
      | true => simp [ha.2 h]
      | false => exact ih (fun b hb => hp b (List.mem_cons_of_mem a hb))

theorem filter_map_eq {α : Type} (l : List α) (g : α → α) (p : α → Bool)
    (hp : ∀ a ∈ l, p (g a) = p a ∧ (p a = true → g a = a)) :
    (l.map g).filter p = l.filter p := by
  induction l with
  | nil => rfl
  | cons a t ih =>
      have ha := hp a (List.mem_cons_self a t)
      have ht := ih (fun b hb => hp b (List.mem_cons_of_mem a hb))
      rw [List.map_cons, List.filter_cons, List.filter_cons, ha.1]
      cases h : p a with
      | true => simp [ha.2 h, ht]
      | false => simpa using ht

theorem filter_map_nil {α : Type} (l : List α) (g : α → α) (p : α → Bool)
    (hp : ∀ a ∈ l, p (g a) = false) :
    (l.map g).filter p = [] := by
  induction l with
  | nil => rfl
  | cons a t ih =>
      rw [List.map_cons, List.filter_cons, hp a (List.mem_cons_self a t)]
      exact ih (fun b hb => hp b (List.mem_cons_of_mem a hb))

theorem filter_map_comm {α : Type} (l : List α) (g : α → α) (p : α → Bool)
    (hp : ∀ a ∈ l, p (g a) = p a) :
    (l.map g).filter p = (l.filter p).map g := by
  induction l with
  | nil => rfl
  | cons a t ih =>
      have ht := ih (fun b hb => hp b (List.mem_cons_of_mem a hb))
      rw [List.map_cons, List.filter_cons, List.filter_cons, hp a (List.mem_cons_self a t)]
      cases h : p a with
      | true => simp [ht]
      | false => simpa using ht

theorem map_map_congr {α β : Type} (l : List α) (g : α → α) (f : α → β)
    (hp : ∀ a ∈ l, f (g a) = f a) :
    (l.map g).map f = l.map f := by
  induction l with
  | nil => rfl
  | cons a t ih =>
      rw [List.map_cons, List.map_cons, List.map_cons, hp a (List.mem_cons_self a t)]
      rw [ih (fun b hb => hp b (List.mem_cons_of_mem a hb))]

theorem find?_filter_of_imp {α : Type} (l : List α) (p q : α → Bool)
    (h : ∀ a ∈ l, p a = true → q a = true) :
    (l.filter q).find? p = l.find? p := by
  induction l with
  | nil => rfl
  | cons a t ih =>
      have ht := ih (fun b hb => h b (List.mem_cons_of_mem a hb))
      rw [List.filter_cons]
      cases hq : q a with
      | true =>
          cases hpa : p a with
          | true => simp [List.find?_cons, hpa]
          | false => simp [List.find?_cons, hpa, ht]
      | false =>
          cases hpa : p a with
          | true => exact absurd (h a (List.mem_cons_self a t) hpa) (by simp [hq])
          | false => simp [List.find?_cons, hpa, ht]

/-! ## Session-store lemmas -/

theorem find?_save_overwrite (l : List (String × SessionState)) (s : SessionState)
    (h : (l.find? (fun e => e.1 == s.sessionId)).isSome = true) :
    (l.map (fun e => if e.1 == s.sessionId then (s.sessionId, s) else e)).find?
      (fun e => e.1 == s.sessionId) = some (s.sessionId, s) := by
  induction l with
  | nil => simp at h
  | cons e t ih =>
      cases he : e.1 == s.sessionId with
      | true =>
          rw [List.map_cons, if_pos he, List.find?_cons]
          simp
      | false =>
          rw [List.find?_cons] at h
          rw [he] at h
          rw [List.map_cons, if_neg (by simp [he]), List.find?_cons, he]
          exact ih h

theorem getSessionState_save_self (store : SessionStore) (s : SessionState) :
    getSessionState s.sessionId (saveSessionState s store) = some s := by
  unfold saveSessionState
  by_cases h : (store.find? (fun e => e.1 == s.sessionId)).isSome
  · rw [if_pos h]
    unfold getSessionState
    rw [find?_save_overwrite store s h]
    rfl
  · rw [if_neg h]
    unfold getSessionState
    rw [List.find?_append]
    rw [Option.not_isSome_iff_eq_none] at h
    simp [h, List.find?_cons]

theorem getSessionState_save_other (store : SessionStore) (s : SessionState)
    (other : String) (h : other ≠ s.sessionId) :
    getSessionState other (saveSessionState s store) = getSessionState other store := by
  unfold saveSessionState getSessionState
  by_cases hs : (store.find? (fun e => e.1 == s.sessionId)).isSome
  · rw [if_pos hs]
    rw [find?_map_eq]
    intro e _
    cases he : e.1 == s.sessionId with
    | true =>
        have he' : e.1 = s.sessionId := eq_of_beq he
        constructor
        · rw [if_pos rfl, he']
        · intro hpe
          have hoe : e.1 = other := eq_of_beq hpe
          exact absurd (hoe ▸ he') h
    | false =>
        constructor
        · rw [if_neg (by simp)]
        · intro _
          rw [if_neg (by simp)]
  · rw [if_neg hs, List.find?_append]
    have hlast : ((s.sessionId, s).1 == other) = false := by
      simp [Ne.symm h]
    simp [List.find?_cons, hlast]

theorem getSessionState_delete_self (store : SessionStore) (id : String) :
    getSessionState id (deleteSessionState id store) = none := by
  unfold deleteSessionState getSessionState
  have : (store.filter (fun e => e.1 != id)).find? (fun e => e.1 == id) = none := by
    rw [List.find?_eq_none]
    intro e he
    have := (List.mem_filter.mp he).2
    simpa using this
  simp [this]

theorem getSessionState_delete_other (store : SessionStore) (id other : String)
    (h : other ≠ id) :
    getSessionState other (deleteSessionState id store) = getSessionState other store := by
  unfold deleteSessionState getSessionState
  rw [find?_filter_of_imp]
  intro e _ hpe
  have : e.1 = other := by simpa using hpe
  simp [this, h]

/-- **C10**: session-store round-trip: `saveSessionState s` followed by
`getSessionState s.sessionId` returns `s`; `deleteSessionState id`
followed by `getSessionState id` returns `none` (the source's `null`);
and a save or delete for one session id leaves the stored state of every
other session id unchanged. -/
theorem c10_sessionStore_roundtrip (store : SessionStore) (s : SessionState)
    (id other : String) (hs : other ≠ s.sessionId) (hd : other ≠ id) :
    getSessionState s.sessionId (saveSessionState s store) = some s ∧
    getSessionState id (deleteSessionState id store) = none ∧
    getSessionState other (saveSessionState s store) = getSessionState other store ∧
    getSessionState other (deleteSessionState id store) = getSessionState other store :=
  ⟨getSessionState_save_self store s,
   getSessionState_delete_self store id,
   getSessionState_save_other store s other hs,
   getSessionState_delete_other store id other hd⟩

/-- Witness for C10 at a concrete store: one saved session `"a"`,
saving `"b"`, deleting `"a"`, and probing the untouched id `"c"`. -/
theorem c10_witness :
    getSessionState "b" (saveSessionState { doneSession with sessionId := "b" } [("a", doneSession)]) =
      some { doneSession with sessionId := "b" } ∧
    getSessionState "a" (deleteSessionState "a" [("a", doneSession)]) = none ∧
    getSessionState "c" (saveSessionState { doneSession with sessionId := "b" } [("a", doneSession)]) =
      getSessionState "c" [("a", doneSession)] ∧
    getSessionState "c" (deleteSessionState "a" [("a", doneSession)]) =
      getSessionState "c" [("a", doneSession)] :=
  c10_sessionStore_roundtrip [("a", doneSession)] { doneSession with sessionId := "b" } "a" "c"
    (by decide) (by decide)

/-! ## Chat-path characterization lemmas -/

/-- On a valid request whose message is not safety-flagged, the handler
reaches the oracle call with the captured session and the prompt built
for its (pre-update) current step. -/
theorem chatPreOracle_unflagged (config : PresenceConfig) (store : SessionStore)
    (req : ChatRequestBody) (now : String)
    (h1 : req.sessionId ≠ "") (h2 : req.userMessage ≠ "")
    (hf : (checkForSafetyFlags config req.userMessage).flagged = false) :
    chatPreOracle config store req now true =
      (let session2 := captureUserFeeling
         (captureNextActivity
           ((getSessionState req.sessionId store).getD (newSessionFor req.sessionId now)) req)
         req.userMessage
       .callOracle session2 (buildPromptForStep config session2.currentStep session2 req.userMessage)) := by
  have h1' : (req.sessionId == "") = false := beq_eq_false_iff_ne.mpr h1
  have h2' : (req.userMessage == "") = false := beq_eq_false_iff_ne.mpr h2
  unfold chatPreOracle
  simp only [h1', h2', hf, Bool.not_true, Bool.false_eq_true, if_false]

/-- On a valid request whose message is safety-flagged, the handler
forces the session to `DONE`, persists it, and answers with the safety
response — without reaching the oracle call. -/
theorem chatPreOracle_flagged (config : PresenceConfig) (store : SessionStore)
    (req : ChatRequestBody) (now : String)
    (h1 : req.sessionId ≠ "") (h2 : req.userMessage ≠ "")
    (hf : (checkForSafetyFlags config req.userMessage).flagged = true) :
    chatPreOracle config store req now true =
      (let session2 : SessionState :=
         { captureNextActivity
             ((getSessionState req.sessionId store).getD (newSessionFor req.sessionId now)) req with
           currentStep := .DONE, updatedAt := now }
       .finished
         (.chat
           { assistantMessage := (checkForSafetyFlags config req.userMessage).responseText.getD safetyFallbackMessage
             currentStep := .DONE
             done := true } 200)
         (saveSessionState session2 store)) := by
  have h1' : (req.sessionId == "") = false := beq_eq_false_iff_ne.mpr h1
  have h2' : (req.userMessage == "") = false := beq_eq_false_iff_ne.mpr h2
  unfold chatPreOracle
  simp only [h1', h2', hf, Bool.not_true, Bool.false_eq_true, if_false, if_true]

/-- A message is flagged exactly when some configured keyword occurs in
it, case-insensitively. -/
theorem checkForSafetyFlags_flagged_iff (config : PresenceConfig) (text : String) :
    (checkForSafetyFlags config text).flagged = true ↔
      ∃ kw ∈ (config.safety.bind (fun s => s.keywords)).getD [],
        strIncludes (jsToLower text) (jsToLower kw) = true := by
  unfold checkForSafetyFlags
  cases h : ((config.safety.bind (fun s => s.keywords)).getD []).find?
      (fun kw => strIncludes (jsToLower text) (jsToLower kw)) with
  | none =>
      simp only [h]
      constructor
      · intro hfl; cases hfl
      · intro ⟨kw, hmem, hinc⟩
        have : (((config.safety.bind (fun s => s.keywords)).getD []).find?
            (fun kw => strIncludes (jsToLower text) (jsToLower kw))).isSome = true :=
          List.find?_isSome.mpr ⟨kw, hmem, hinc⟩
        rw [h] at this
        cases this
  | some kw =>
      simp only [h]
      constructor
      · intro _
        have hp : (fun kw => strIncludes (jsToLower text) (jsToLower kw)) kw = true :=
          @List.find?_some _ (fun kw => strIncludes (jsToLower text) (jsToLower kw)) kw _ h
        exact ⟨kw, List.mem_of_find?_eq_some h, hp⟩
      · intro _; trivial

/-- When a message is flagged, the scanner's response text is the
crisis text computed from the configuration. -/
theorem checkForSafetyFlags_responseText (config : PresenceConfig) (text : String)
    (hf : (checkForSafetyFlags config text).flagged = true) :
    (checkForSafetyFlags config text).responseText = some (crisisResponseText config) := by
  cases h : ((config.safety.bind (fun s => s.keywords)).getD []).find?
      (fun kw => strIncludes (jsToLower text) (jsToLower kw)) with
  | none =>
      have hfl : (checkForSafetyFlags config text).flagged = false := by
        unfold checkForSafetyFlags
        simp only [h]
      rw [hf] at hfl
      cases hfl
  | some kw =>
      unfold checkForSafetyFlags
      simp only [h]
      rfl

/-! ## Field lemmas for the capture steps -/

theorem captureNextActivity_currentStep (s : SessionState) (req : ChatRequestBody) :
    (captureNextActivity s req).currentStep = s.currentStep := by
  unfold captureNextActivity
  cases h : optStrFalsy s.nextActivityRaw && req.nextActivity.isSome <;> simp [h]

theorem captureNextActivity_sessionId (s : SessionState) (req : ChatRequestBody) :
    (captureNextActivity s req).sessionId = s.sessionId := by
  unfold captureNextActivity
  cases h : optStrFalsy s.nextActivityRaw && req.nextActivity.isSome <;> simp [h]

theorem captureNextActivity_userFeelingRaw (s : SessionState) (req : ChatRequestBody) :
    (captureNextActivity s req).userFeelingRaw = s.userFeelingRaw := by
  unfold captureNextActivity
  cases h : optStrFalsy s.nextActivityRaw && req.nextActivity.isSome <;> simp [h]

theorem captureNextActivity_nextActivityRaw (s : SessionState) (req : ChatRequestBody) :
    (captureNextActivity s req).nextActivityRaw =
      (if optStrFalsy s.nextActivityRaw && req.nextActivity.isSome then req.nextActivity
       else s.nextActivityRaw) := by
  unfold captureNextActivity
  cases h : optStrFalsy s.nextActivityRaw && req.nextActivity.isSome <;> simp [h]

theorem captureUserFeeling_currentStep (s : SessionState) (m : String) :
    (captureUserFeeling s m).currentStep = s.currentStep := by
  unfold captureUserFeeling
  cases h : optStrFalsy s.userFeelingRaw <;> simp [h]

theorem captureUserFeeling_sessionId (s : SessionState) (m : String) :
    (captureUserFeeling s m).sessionId = s.sessionId := by
  unfold captureUserFeeling
  cases h : optStrFalsy s.userFeelingRaw <;> simp [h]

theorem captureUserFeeling_nextActivityRaw (s : SessionState) (m : String) :
    (captureUserFeeling s m).nextActivityRaw = s.nextActivityRaw := by
  unfold captureUserFeeling
  cases h : optStrFalsy s.userFeelingRaw <;> simp [h]

theorem captureUserFeeling_userFeelingRaw (s : SessionState) (m : String) :
    (captureUserFeeling s m).userFeelingRaw =
      (if optStrFalsy s.userFeelingRaw then some m else s.userFeelingRaw) := by
  unfold captureUserFeeling
  cases h : optStrFalsy s.userFeelingRaw <;> simp [h]

/-- A consistent session store: every entry is keyed by the session id
of the state it holds — true of every store the route builds, since
`saveSessionState` keys by `session.sessionId`. -/
def consistentStore (store : SessionStore) : Prop :=
  ∀ e ∈ store, e.2.sessionId = e.1

theorem getSessionState_sessionId (store : SessionStore) (id : String) (s : SessionState)
    (hcons : consistentStore store) (h : getSessionState id store = some s) :
    s.sessionId = id := by
  unfold getSessionState at h
  cases hf : store.find? (fun e => e.1 == id) with
  | none => rw [hf] at h; cases h
  | some e =>
      rw [hf] at h
      have he1 : (fun e => e.1 == id) e = true :=
        @List.find?_some _ (fun e => e.1 == id) e _ hf
      have hkey : e.1 = id := eq_of_beq he1
      have := hcons e (List.mem_of_find?_eq_some hf)
      cases h
      rw [this, hkey]

/-- The session the handler persists after the oracle phase keeps the
captured `sessionId`, `userFeelingRaw` and `nextActivityRaw` fields. -/
theorem chatWithOracle_persisted (session : SessionState) (store : SessionStore)
    (outcome : OracleOutcome) (now : String) :
    ∃ s2, (chatWithOracle session store outcome now).2 = saveSessionState s2 store ∧
      s2.sessionId = session.sessionId ∧
      s2.userFeelingRaw = session.userFeelingRaw ∧
      s2.nextActivityRaw = session.nextActivityRaw := by
  unfold chatWithOracle
  refine ⟨_, rfl, ?_, ?_, ?_⟩ <;>
    cases hX : ((oracleComputed session outcome).2.2.bind notesObjectEntries) <;>
      simp [hX]

/-! ## Claim C9 — active-config resolution (code bug) -/

/-- **C9**: the first `getPresenceConfig()` call of a production process
with an empty cache returns the bundled default — regardless of what the
store holds — because the store fetch is started with
`void ….then(…)` and never awaited; the fetched active config only
replaces the cache for later calls, and a fetch failure leaves the
default cached (the `catch` around the un-awaited promise cannot fire).
The spec's claim that the resolver prefers the persisted active version
and falls back only when storage is unavailable is therefore not what
this code does on the resolution path. -/
theorem c9_first_resolution_ignores_store (bundledDefault fetched : PresenceConfig) :
    (getPresenceConfig true bundledDefault ⟨none⟩).result = bundledDefault ∧
    (getPresenceConfig true bundledDefault ⟨none⟩).startedBackgroundFetch = true ∧
    (getPresenceConfig true bundledDefault
      (backgroundFetchCompletes (.ok fetched)
        (getPresenceConfig true bundledDefault ⟨none⟩).state)).result = fetched ∧
    (getPresenceConfig true bundledDefault
      (backgroundFetchCompletes (.error "storage unavailable")
        (getPresenceConfig true bundledDefault ⟨none⟩).state)).result = bundledDefault :=
  ⟨rfl, rfl, rfl, rfl⟩

/-! ## Claim C1 — two racing activations leave two active versions -/

/-- **C1**: the store reached by two sequential
`createVersion(makeActive=true)` calls has two versions; the schedulable
interleaving of two `activateVersion` calls embedded in
`racedActivationDB` (deactivate-others of both calls first, then both
mark-active steps) leaves **both** versions with `isActive = true`,
refuting the exactly-one-active guarantee under concurrency.  The
source's deactivate/mark steps are separate awaited Prisma calls with no
transaction around them. -/
theorem c1_race_leaves_two_active :
    (versionsOf 0 racedActivationDB).length = 2 ∧
    (activeVersionsOf 0 racedActivationDB).length = 2 := by decide

/-! ## Claim C2 counterexample — zero active versions sequentially -/

/-- **C2** (counterexample): a single completed
`createVersion(makeActive=false)` on a ritual with no versions leaves
the ritual with one version row and zero active rows, refuting the
at-least-one-active half of the claim even in a purely sequential
execution. -/
theorem c2_counterexample :
    (versionsOf 0 (createRitualConfigVersion (sampleCreateOpts false) DB.empty).2).length = 1 ∧
    (activeVersionsOf 0 (createRitualConfigVersion (sampleCreateOpts false) DB.empty).2).length = 0 := by
  decide

/-! ## Claim C3 — DONE sessions and the oracle -/

theorem buildPromptForStep_done (config : PresenceConfig) (session : SessionState)
    (msg : String) :
    buildPromptForStep config .DONE session msg = donePromptNotice := rfl

/-- **C3** (counterexample): a turn against a stored session whose
`currentStep` is `DONE`, with an unflagged message, still reaches the
`openai.chat.completions.create` call — the handler has no early return
for `DONE` sessions, so the claim that the orchestrator handles such a
request without invoking the oracle is false. -/
theorem c3_counterexample :
    doneSession.currentStep = .DONE ∧
    (checkForSafetyFlags plainConfig "hello").flagged = false ∧
    chatInvokesOracle plainConfig [("s1", doneSession)] ⟨"s1", "hello", none⟩ "T0" true = true := by
  decide

/-- **C3** (amended): the prompt builder called with step `DONE` always
returns the short no-op completion notice (never a generation
instruction); the orchestrator, however, still invokes the generation
oracle on a valid unflagged turn against a `DONE` session — passing that
no-op notice as the prompt. -/
theorem c3_amended (config : PresenceConfig) (anySession session : SessionState)
    (msg : String) (store : SessionStore) (req : ChatRequestBody) (now : String)
    (hf : (checkForSafetyFlags config req.userMessage).flagged = false)
    (h1 : req.sessionId ≠ "") (h2 : req.userMessage ≠ "")
    (hget : getSessionState req.sessionId store = some session)
    (hdone : session.currentStep = .DONE) :
    buildPromptForStep config .DONE anySession msg = donePromptNotice ∧
    chatInvokesOracle config store req now true = true ∧
    ∃ s', chatPreOracle config store req now true = .callOracle s' donePromptNotice := by
  have hpre := chatPreOracle_unflagged config store req now h1 h2 hf
  have hstep : (captureUserFeeling
      (captureNextActivity
        ((getSessionState req.sessionId store).getD (newSessionFor req.sessionId now)) req)
      req.userMessage).currentStep = .DONE := by
    rw [captureUserFeeling_currentStep, captureNextActivity_currentStep, hget]
    exact hdone
  refine ⟨rfl, ?_, ?_⟩
  · unfold chatInvokesOracle
    rw [hpre]
  · rw [hpre]
    dsimp only
    rw [hstep, buildPromptForStep_done]
    exact ⟨_, rfl⟩

/-- Witness for C3 (amended) at a concrete `DONE` session and request. -/
theorem c3_witness :
    buildPromptForStep plainConfig .DONE doneSession "hi" = donePromptNotice ∧
    chatInvokesOracle plainConfig [("s1", doneSession)] ⟨"s1", "hello", none⟩ "T0" true = true ∧
    ∃ s', chatPreOracle plainConfig [("s1", doneSession)] ⟨"s1", "hello", none⟩ "T0" true =
      .callOracle s' donePromptNotice :=
  c3_amended plainConfig doneSession doneSession "hi" [("s1", doneSession)]
    ⟨"s1", "hello", none⟩ "T0" (by decide) (by decide) (by decide) (by rfl) (by rfl)

/-! ## Claim C4 — safety override -/

/-- **C4** (counterexample): with a configured `crisisTemplate` carrying
a trailing space and an empty disclaimer, the flagged turn's crisis text
is the **trimmed** template, not the configured template and disclaimer
joined with empty parts skipped (`"Please reach out. "`): safety.ts
trims both parts before joining. -/
theorem c4_counterexample :
    (keywordConfig.safety.bind (fun s => s.crisisTemplate)) = some "Please reach out. " ∧
    (keywordConfig.safety.bind (fun s => s.disclaimer)) = some "" ∧
    (chatPOST keywordConfig [] ⟨"s1", "I feel HOPELESS today", some "client session"⟩ "T0" true .apiError).1 =
      ApiResult.chat { assistantMessage := "Please reach out.", currentStep := .DONE, done := true } 200 ∧
    "Please reach out." ≠ "Please reach out. " := by decide

/-- **C4** (amended): a turn whose message contains some configured
keyword as a case-insensitive substring never reaches the oracle call,
persists the session with `currentStep = DONE`, and responds 200 with
`done = true` and a crisis text equal to the **trimmed**
`crisisTemplate` and `disclaimer` joined by a blank line (skipping parts
that trim to empty), or the hard-coded fallback when both do. -/
theorem c4_amended (config : PresenceConfig) (store : SessionStore)
    (req : ChatRequestBody) (now : String) (oracle : OracleOutcome)
    (hcons : consistentStore store)
    (hkw : ∃ kw ∈ (config.safety.bind (fun s => s.keywords)).getD [],
      strIncludes (jsToLower req.userMessage) (jsToLower kw) = true)
    (h1 : req.sessionId ≠ "") (h2 : req.userMessage ≠ "") :
    chatInvokesOracle config store req now true = false ∧
    (chatPOST config store req now true oracle).1 =
      .chat { assistantMessage := crisisResponseText config, currentStep := .DONE, done := true } 200 ∧
    ∃ s', getSessionState req.sessionId (chatPOST config store req now true oracle).2 = some s' ∧
      s'.currentStep = .DONE := by
  have hf : (checkForSafetyFlags config req.userMessage).flagged = true :=
    (checkForSafetyFlags_flagged_iff config req.userMessage).mpr hkw
  have hpre := chatPreOracle_flagged config store req now h1 h2 hf
  have hsid : (captureNextActivity
      ((getSessionState req.sessionId store).getD (newSessionFor req.sessionId now)) req).sessionId
      = req.sessionId := by
    rw [captureNextActivity_sessionId]
    cases hget : getSessionState req.sessionId store with
    | none => rfl
    | some s =>
        rw [Option.getD_some]
        exact getSessionState_sessionId store req.sessionId s hcons hget
  refine ⟨?_, ?_, ?_⟩
  · unfold chatInvokesOracle
    rw [hpre]
  · unfold chatPOST
    rw [hpre]
    dsimp only
    rw [checkForSafetyFlags_responseText config req.userMessage hf]
    rfl
  · unfold chatPOST
    rw [hpre]
    dsimp only
    refine ⟨{ captureNextActivity
        ((getSessionState req.sessionId store).getD (newSessionFor req.sessionId now)) req with
      currentStep := .DONE, updatedAt := now }, ?_, rfl⟩
    have hself := getSessionState_save_self store
      { captureNextActivity
          ((getSessionState req.sessionId store).getD (newSessionFor req.sessionId now)) req with
        currentStep := .DONE, updatedAt := now }
    rwa [show ({ captureNextActivity
          ((getSessionState req.sessionId store).getD (newSessionFor req.sessionId now)) req with
        currentStep := .DONE, updatedAt := now } : SessionState).sessionId = req.sessionId from hsid] at hself

/-- Witness for C4 (amended): keyword `"hopeless"`, message
`"I feel HOPELESS today"`. -/
theorem c4_witness :
    chatInvokesOracle keywordConfig [] ⟨"s1", "I feel HOPELESS today", some "client session"⟩ "T0" true = false ∧
    (chatPOST keywordConfig [] ⟨"s1", "I feel HOPELESS today", some "client session"⟩ "T0" true .apiError).1 =
      .chat { assistantMessage := crisisResponseText keywordConfig, currentStep := .DONE, done := true } 200 ∧
    ∃ s', getSessionState "s1"
        (chatPOST keywordConfig [] ⟨"s1", "I feel HOPELESS today", some "client session"⟩ "T0" true .apiError).2 =
        some s' ∧ s'.currentStep = .DONE :=
  c4_amended keywordConfig [] ⟨"s1", "I feel HOPELESS today", some "client session"⟩ "T0" .apiError
    (by intro e he; cases he) ⟨"hopeless", by decide, by decide⟩ (by decide) (by decide)

/-! ## Claim C5 — first-write-wins capture vs. the safety scan -/

theorem loadedSession_sessionId (store : SessionStore) (req : ChatRequestBody) (now : String)
    (hcons : consistentStore store) :
    ((getSessionState req.sessionId store).getD (newSessionFor req.sessionId now)).sessionId
      = req.sessionId := by
  cases hget : getSessionState req.sessionId store with
  | none => rfl
  | some s =>
      rw [Option.getD_some]
      exact getSessionState_sessionId store req.sessionId s hcons hget

/-- **C5** (counterexample): a brand-new session whose *first* message is
safety-flagged is persisted with `userFeelingRaw` **unset** (the
first-write of `userFeelingRaw` sits *after* the safety scan in
route.ts, on the unflagged path only), while `nextActivityRaw` is
captured — so the claim that the first-write capture of both fields
happens before the safety scan is false. -/
theorem c5_counterexample :
    ((getSessionState "s1"
        (chatPOST keywordConfig [] ⟨"s1", "I feel HOPELESS today", some "client session"⟩ "T0" true .apiError).2).map
      (fun s => s.userFeelingRaw)) = some none ∧
    ((getSessionState "s1"
        (chatPOST keywordConfig [] ⟨"s1", "I feel HOPELESS today", some "client session"⟩ "T0" true .apiError).2).map
      (fun s => s.nextActivityRaw)) = some (some "client session") ∧
    (some (none : Option String)) ≠ some (some "I feel HOPELESS today") := by decide

/-- **C5** (amended): on every valid turn, `nextActivityRaw` is captured
first-write-wins *before* the safety scan (so it is persisted even on a
flagged turn), while `userFeelingRaw` is captured first-write-wins only
*after* an unflagged scan: a flagged turn persists it unchanged, an
unflagged turn sets it to this turn's `userMessage` exactly when it was
unset (or empty); a field already holding a non-empty value is never
overwritten. -/
theorem c5_amended (config : PresenceConfig) (store : SessionStore)
    (req : ChatRequestBody) (now : String) (oracle : OracleOutcome) (session0 : SessionState)
    (hcons : consistentStore store)
    (h1 : req.sessionId ≠ "") (h2 : req.userMessage ≠ "")
    (hs0 : session0 = (getSessionState req.sessionId store).getD (newSessionFor req.sessionId now)) :
    ((checkForSafetyFlags config req.userMessage).flagged = true →
      ∃ s', getSessionState req.sessionId (chatPOST config store req now true oracle).2 = some s' ∧
        s'.nextActivityRaw = (if optStrFalsy session0.nextActivityRaw && req.nextActivity.isSome
          then req.nextActivity else session0.nextActivityRaw) ∧
        s'.userFeelingRaw = session0.userFeelingRaw ∧
        s'.currentStep = .DONE) ∧
    ((checkForSafetyFlags config req.userMessage).flagged = false →
      ∃ s', getSessionState req.sessionId (chatPOST config store req now true oracle).2 = some s' ∧
        s'.nextActivityRaw = (if optStrFalsy session0.nextActivityRaw && req.nextActivity.isSome
          then req.nextActivity else session0.nextActivityRaw) ∧
        s'.userFeelingRaw = (if optStrFalsy session0.userFeelingRaw
          then some req.userMessage else session0.userFeelingRaw)) := by
  subst hs0
  have hsid0 := loadedSession_sessionId store req now hcons
  constructor
  · intro hf
    have hpre := chatPreOracle_flagged config store req now h1 h2 hf
    unfold chatPOST
    rw [hpre]
    dsimp only
    refine ⟨{ captureNextActivity
        ((getSessionState req.sessionId store).getD (newSessionFor req.sessionId now)) req with
      currentStep := .DONE, updatedAt := now }, ?_, ?_, ?_, rfl⟩
    · have hself := getSessionState_save_self store
        { captureNextActivity
            ((getSessionState req.sessionId store).getD (newSessionFor req.sessionId now)) req with
          currentStep := .DONE, updatedAt := now }
      rwa [show ({ captureNextActivity
            ((getSessionState req.sessionId store).getD (newSessionFor req.sessionId now)) req with
          currentStep := .DONE, updatedAt := now } : SessionState).sessionId = req.sessionId by
        show (captureNextActivity
          ((getSessionState req.sessionId store).getD (newSessionFor req.sessionId now)) req).sessionId
          = req.sessionId
        rw [captureNextActivity_sessionId]
        exact hsid0] at hself
    · exact captureNextActivity_nextActivityRaw _ req
    · exact captureNextActivity_userFeelingRaw _ req
  · intro hf
    have hpre := chatPreOracle_unflagged config store req now h1 h2 hf
    unfold chatPOST
    rw [hpre]
    dsimp only
    obtain ⟨s2, hst, hsid2, hfeel, hna⟩ := chatWithOracle_persisted
      (captureUserFeeling
        (captureNextActivity
          ((getSessionState req.sessionId store).getD (newSessionFor req.sessionId now)) req)
        req.userMessage) store oracle now
    rw [hst]
    have hsid' : s2.sessionId = req.sessionId := by
      rw [hsid2, captureUserFeeling_sessionId, captureNextActivity_sessionId]
      exact hsid0
    refine ⟨s2, ?_, ?_, ?_⟩
    · have hself := getSessionState_save_self store s2
      rwa [hsid'] at hself
    · rw [hna, captureUserFeeling_nextActivityRaw, captureNextActivity_nextActivityRaw]
    · rw [hfeel, captureUserFeeling_userFeelingRaw, captureNextActivity_userFeelingRaw]

/-- Witness for C5 (amended): the flagged branch at the crisis message,
the unflagged branch at a plain message, both on a fresh session. -/
theorem c5_witness :
    (∃ s', getSessionState "s1"
        (chatPOST keywordConfig [] ⟨"s1", "I feel HOPELESS today", some "client session"⟩ "T0" true .apiError).2 =
        some s' ∧
      s'.nextActivityRaw = (if optStrFalsy (newSessionFor "s1" "T0").nextActivityRaw &&
          (some "client session" : Option String).isSome
        then (some "client session" : Option String) else (newSessionFor "s1" "T0").nextActivityRaw) ∧
      s'.userFeelingRaw = (newSessionFor "s1" "T0").userFeelingRaw ∧
      s'.currentStep = .DONE) ∧
    (∃ s', getSessionState "s1"
        (chatPOST plainConfig [] ⟨"s1", "hello", none⟩ "T0" true .apiError).2 = some s' ∧
      s'.nextActivityRaw = (if optStrFalsy (newSessionFor "s1" "T0").nextActivityRaw &&
          (none : Option String).isSome
        then (none : Option String) else (newSessionFor "s1" "T0").nextActivityRaw) ∧
      s'.userFeelingRaw = (if optStrFalsy (newSessionFor "s1" "T0").userFeelingRaw
        then some "hello" else (newSessionFor "s1" "T0").userFeelingRaw)) :=
  ⟨(c5_amended keywordConfig [] ⟨"s1", "I feel HOPELESS today", some "client session"⟩ "T0" .apiError
      (newSessionFor "s1" "T0") (by intro e he; cases he) (by decide) (by decide) rfl).1 (by decide),
   (c5_amended plainConfig [] ⟨"s1", "hello", none⟩ "T0" .apiError
      (newSessionFor "s1" "T0") (by intro e he; cases he) (by decide) (by decide) rfl).2 (by decide)⟩

/-! ## Claim C6 — oracle fallback handling -/

theorem oracleComputed_malformed (session : SessionState) (text : String)
    (parsed : Option Json) (ht : text ≠ "")
    (hval : parsed.bind (fun j => validateOracleJson j session.currentStep) = none) :
    oracleComputed session (.completion (some text) parsed) =
      (jsTrim (jsSubstring0 text 500), .DONE, none) := by
  unfold oracleComputed
  dsimp only [Option.getD]
  rw [if_neg (by simp [beq_eq_false_iff_ne.mpr ht]), hval]

theorem oracleComputed_valid (session : SessionState) (text : String)
    (parsed : Option Json) (p : ParsedTurn) (ht : text ≠ "")
    (hval : parsed.bind (fun j => validateOracleJson j session.currentStep) = some p) :
    oracleComputed session (.completion (some text) parsed) =
      (jsTrim p.assistantMessage, p.nextStep, p.notesUpdate) := by
  unfold oracleComputed
  dsimp only [Option.getD]
  rw [if_neg (by simp [beq_eq_false_iff_ne.mpr ht]), hval]

/-- What one oracle phase does, given the computed
`(assistantMessage, nextStep, notesUpdate)` triple: a 200 chat response
with the empty-message fallback applied, `currentStep` and `done` from
the step, and the session persisted at that step. -/
theorem chatWithOracle_characterized (session : SessionState) (store : SessionStore)
    (now : String) (outcome : OracleOutcome) (msg : String) (step : PresenceStep)
    (nu : Option Json) (h : oracleComputed session outcome = (msg, step, nu)) :
    (chatWithOracle session store outcome now).1 =
      .chat { assistantMessage := (if msg == "" then pauseFallbackMessage else msg)
              currentStep := step
              done := (step == .DONE) } 200 ∧
    ∃ s2, (chatWithOracle session store outcome now).2 = saveSessionState s2 store ∧
      s2.currentStep = step := by
  unfold chatWithOracle
  rw [h]
  exact ⟨rfl, _, rfl, rfl⟩

/-- **C6** (counterexample): when the oracle returns the unparsable text
`" oops"`, the turn's `assistantMessage` is `"oops"` — the raw text
truncated to 500 characters **and whitespace-trimmed** (route.ts applies
`parsed.assistantMessage.trim()` to the salvage value too) — not the
raw truncated text `" oops"` the claim describes. -/
theorem c6_counterexample :
    (chatPOST plainConfig [] ⟨"s1", "hello", none⟩ "T0" true
        (.completion (some " oops") none)).1 =
      ApiResult.chat { assistantMessage := "oops", currentStep := .DONE, done := true } 200 ∧
    jsSubstring0 " oops" 500 = " oops" ∧
    "oops" ≠ " oops" := by decide

/-- **C6** (amended): in the oracle-handling phase of a turn —
(1) malformed JSON or missing/invalid required fields make the raw
oracle text, truncated to 500 characters and whitespace-trimmed, the
`assistantMessage` (a fixed pause message when that trims to empty),
with `nextStep` forced to `DONE`;
(2) a `nextStep` outside the six known literals is replaced by the
session's current step, so no transition happens;
(3) an oracle call failure or empty output yields the fixed apology
with `nextStep` forced to `DONE` —
and in all three cases the turn returns a normal 200 chat response,
never a raw error. -/
theorem c6_amended (session : SessionState) (store : SessionStore) (now : String) :
    (∀ (text : String) (parsed : Option Json), text ≠ "" →
      parsed.bind (fun j => validateOracleJson j session.currentStep) = none →
      (chatWithOracle session store (.completion (some text) parsed) now).1 =
        .chat { assistantMessage := (if jsTrim (jsSubstring0 text 500) == "" then pauseFallbackMessage else jsTrim (jsSubstring0 text 500)), currentStep := .DONE, done := true } 200 ∧
      ∃ s2, (chatWithOracle session store (.completion (some text) parsed) now).2 =
        saveSessionState s2 store ∧ s2.currentStep = .DONE) ∧
    (∀ (text : String) (j : Json) (am ns : String), text ≠ "" →
      j.getField "assistantMessage" = some (.str am) →
      j.getField "nextStep" = some (.str ns) →
      am ≠ "" → ns ≠ "" → stepOfString ns = none →
      ∃ body, (chatWithOracle session store (.completion (some text) (some j)) now).1 =
          .chat body 200 ∧
        body.currentStep = session.currentStep ∧
        body.done = (session.currentStep == .DONE) ∧
        ∃ s2, (chatWithOracle session store (.completion (some text) (some j)) now).2 =
          saveSessionState s2 store ∧ s2.currentStep = session.currentStep) ∧
    ((chatWithOracle session store .apiError now).1 =
        .chat { assistantMessage := oracleFailureMessage, currentStep := .DONE, done := true } 200 ∧
      ∀ parsed : Option Json,
        (chatWithOracle session store (.completion none parsed) now).1 =
          .chat { assistantMessage := oracleFailureMessage, currentStep := .DONE, done := true } 200 ∧
        (chatWithOracle session store (.completion (some "") parsed) now).1 =
          .chat { assistantMessage := oracleFailureMessage, currentStep := .DONE, done := true } 200) := by
  refine ⟨?_, ?_, ?_, ?_⟩
  · intro text parsed ht hval
    have hch := chatWithOracle_characterized session store now (.completion (some text) parsed)
      (jsTrim (jsSubstring0 text 500)) .DONE none (oracleComputed_malformed session text parsed ht hval)
    exact ⟨hch.1, hch.2⟩
  · intro text j am ns ht hgf1 hgf2 ham hns hstep
    have hv : validateOracleJson j session.currentStep =
        some ⟨am, session.currentStep, j.getField "notesUpdate"⟩ := by
      unfold validateOracleJson
      rw [hgf1, hgf2]
      dsimp only
      rw [if_neg (by simp [beq_eq_false_iff_ne.mpr ham, beq_eq_false_iff_ne.mpr hns]), hstep]
      rfl
    have hch := chatWithOracle_characterized session store now (.completion (some text) (some j))
      (jsTrim am) session.currentStep (j.getField "notesUpdate")
      (oracleComputed_valid session text (some j) ⟨am, session.currentStep, j.getField "notesUpdate"⟩ ht hv)
    exact ⟨_, hch.1, rfl, rfl, hch.2⟩
  · have hch := chatWithOracle_characterized session store now .apiError
      oracleFailureMessage .DONE none rfl
    exact hch.1
  · intro parsed
    have h1 := chatWithOracle_characterized session store now (.completion none parsed)
      oracleFailureMessage .DONE none rfl
    have h2 := chatWithOracle_characterized session store now (.completion (some "") parsed)
      oracleFailureMessage .DONE none rfl
    exact ⟨h1.1, h2.1⟩

/-- Witness for C6 (amended): the unparsable text `" oops"`, a JSON
reply proposing the unknown step `"SIDEWAYS"`, and a failed call, all on
a fresh session. -/
theorem c6_witness :
    ((chatWithOracle (newSessionFor "s1" "T0") [] (.completion (some " oops") none) "T1").1 =
      .chat { assistantMessage := (if jsTrim (jsSubstring0 " oops" 500) == "" then pauseFallbackMessage else jsTrim (jsSubstring0 " oops" 500)), currentStep := .DONE, done := true } 200 ∧
      ∃ s2, (chatWithOracle (newSessionFor "s1" "T0") [] (.completion (some " oops") none) "T1").2 =
        saveSessionState s2 [] ∧ s2.currentStep = .DONE) ∧
    (∃ body, (chatWithOracle (newSessionFor "s1" "T0") []
        (.completion (some "x")
          (some (Json.obj [("assistantMessage", Json.str "hi there"), ("nextStep", Json.str "SIDEWAYS")])))
        "T1").1 = .chat body 200 ∧
      body.currentStep = (newSessionFor "s1" "T0").currentStep ∧
      body.done = ((newSessionFor "s1" "T0").currentStep == .DONE) ∧
      ∃ s2, (chatWithOracle (newSessionFor "s1" "T0") []
        (.completion (some "x")
          (some (Json.obj [("assistantMessage", Json.str "hi there"), ("nextStep", Json.str "SIDEWAYS")])))
        "T1").2 = saveSessionState s2 [] ∧ s2.currentStep = (newSessionFor "s1" "T0").currentStep) ∧
    (chatWithOracle (newSessionFor "s1" "T0") [] .apiError "T1").1 =
      .chat { assistantMessage := oracleFailureMessage, currentStep := .DONE, done := true } 200 :=
  ⟨(c6_amended (newSessionFor "s1" "T0") [] "T1").1 " oops" none (by decide) rfl,
   (c6_amended (newSessionFor "s1" "T0") [] "T1").2.1 "x"
     (Json.obj [("assistantMessage", Json.str "hi there"), ("nextStep", Json.str "SIDEWAYS")])
     "hi there" "SIDEWAYS" (by decide) rfl rfl (by decide) (by decide) rfl,
   (c6_amended (newSessionFor "s1" "T0") [] "T1").2.2.1⟩

/-! ## Store lemmas: arithmetic of version numbers -/

theorem foldr_max_acc (l : List Nat) (a : Nat) :
    l.foldr max a = max (l.foldr max 0) a := by
  induction l with
  | nil => simp
  | cons b t ih => simp only [List.foldr_cons, ih]; omega

theorem foldr_max_range' (k : Nat) : (List.range' 1 k).foldr max 0 = k := by
  induction k with
  | zero => rfl
  | succ n ih =>
      rw [List.range'_concat, List.foldr_append, List.foldr_cons, List.foldr_nil,
        foldr_max_acc, ih]
      omega

theorem maxVersionNumber_eq_foldr (rid : Nat) (db : DB) :
    maxVersionNumber rid db =
      ((versionsOf rid db).map (fun v => v.versionNumber)).foldr max 0 := by
  unfold maxVersionNumber
  rw [List.foldr_map]

/-- When a ritual's numbers are `1, …, k`, the aggregate max is `k`. -/
theorem maxVersionNumber_of_seq (rid : Nat) (db : DB)
    (h : (versionsOf rid db).map (fun v => v.versionNumber)
      = List.range' 1 (versionsOf rid db).length) :
    maxVersionNumber rid db = (versionsOf rid db).length := by
  rw [maxVersionNumber_eq_foldr, h, foldr_max_range']

/-- A rid that owns no row has no versions. -/
theorem versionsOf_eq_nil_of_not_mem (rid : Nat) (db : DB)
    (h : rid ∉ ritualIdsOf db) : versionsOf rid db = [] := by
  unfold versionsOf
  rw [List.filter_eq_nil_iff]
  intro v hv hbeq
  exact h (List.mem_map.mpr ⟨v, hv, eq_of_beq hbeq⟩)

/-- `numbersSeq` gives the `1, …, k` shape for every rid, owning rows or
not. -/
theorem numbersSeq_all (db : DB) (h : numbersSeq db) (rid : Nat) :
    (versionsOf rid db).map (fun v => v.versionNumber)
      = List.range' 1 (versionsOf rid db).length := by
  by_cases hm : rid ∈ ritualIdsOf db
  · exact h rid hm
  · rw [versionsOf_eq_nil_of_not_mem rid db hm]; rfl

/-- The combined filter for active versions of a ritual. -/
theorem activeVersionsOf_eq (rid : Nat) (db : DB) :
    activeVersionsOf rid db
      = db.versions.filter (fun v => v.isActive && (v.ritualId == rid)) := by
  unfold activeVersionsOf versionsOf
  rw [List.filter_filter]

/-! ## Store lemmas: `ensureRitual` -/

theorem ensureRitual_versions (o : EnsureRitualOpts) (db : DB) :
    (ensureRitual o db).2.versions = db.versions := by
  unfold ensureRitual
  cases h : db.rituals.find? (fun r => r.slug == o.slug) <;> rfl

theorem ensureRitual_nextId_le (o : EnsureRitualOpts) (db : DB) :
    db.nextId ≤ (ensureRitual o db).2.nextId := by
  unfold ensureRitual
  cases h : db.rituals.find? (fun r => r.slug == o.slug) with
  | none => exact Nat.le_succ _
  | some r => exact Nat.le_refl _

theorem ensureRitual_id_lt (o : EnsureRitualOpts) (db : DB)
    (hb : ∀ r ∈ db.rituals, r.id < db.nextId) :
    (ensureRitual o db).1.id < (ensureRitual o db).2.nextId := by
  unfold ensureRitual
  cases h : db.rituals.find? (fun r => r.slug == o.slug) with
  | none => exact Nat.lt_succ_self _
  | some r => exact hb r (List.mem_of_find?_eq_some h)

theorem ensureRitual_rituals_bound (o : EnsureRitualOpts) (db : DB)
    (hb : ∀ r ∈ db.rituals, r.id < db.nextId) :
    ∀ r ∈ (ensureRitual o db).2.rituals, r.id < (ensureRitual o db).2.nextId := by
  unfold ensureRitual
  cases h : db.rituals.find? (fun r => r.slug == o.slug) with
  | none =>
      intro r hr
      rcases List.mem_append.mp hr with hr | hr
      · exact Nat.lt_succ_of_lt (hb r hr)
      · rcases List.mem_singleton.mp hr with rfl
        exact Nat.lt_succ_self _
  | some r0 =>
      intro r hr
      rcases List.mem_map.mp hr with ⟨q, hq, hfq⟩
      by_cases hs : (q.slug == o.slug) = true
      · rw [if_pos hs] at hfq
        subst hfq
        exact hb r0 (List.mem_of_find?_eq_some h)
      · rw [if_neg hs] at hfq
        subst hfq
        exact hb q hq

theorem ensureRitual_slugs_map (o : EnsureRitualOpts) (db : DB) :
    ((ensureRitual o db).2.rituals).map (fun r => r.slug)
      = db.rituals.map (fun r => r.slug) ++
        (if (db.rituals.find? (fun r => r.slug == o.slug)).isSome then [] else [o.slug]) := by
  unfold ensureRitual
  cases h : db.rituals.find? (fun r => r.slug == o.slug) with
  | none => simp
  | some r0 =>
      have hr0 : (r0.slug == o.slug) = true :=
        @List.find?_some _ (fun r => r.slug == o.slug) r0 _ h
      have hr0' : r0.slug = o.slug := eq_of_beq hr0
      simp only [h, Option.isSome_some, if_pos, List.append_nil]
      apply map_map_congr
      intro q _
      by_cases hs : (q.slug == o.slug) = true
      · rw [if_pos hs]
        rw [hr0', eq_of_beq hs]
      · rw [if_neg hs]

theorem ensureRitual_nodupSlugs (o : EnsureRitualOpts) (db : DB)
    (h : nodupSlugs db) : nodupSlugs (ensureRitual o db).2 := by
  unfold nodupSlugs at h ⊢
  rw [ensureRitual_slugs_map]
  cases hf : (db.rituals.find? (fun r => r.slug == o.slug)).isSome with
  | true => simpa using h
  | false =>
      simp only [Bool.false_eq_true, if_neg, if_false]
      rw [List.nodup_append]
      refine ⟨h, List.nodup_singleton _, ?_⟩
      intro a ha hb
      rcases List.mem_singleton.mp hb with rfl
      rcases List.mem_map.mp ha with ⟨r, hr, hslug⟩
      have hf' : db.rituals.find? (fun r => r.slug == o.slug) = none := by
        cases hopt : db.rituals.find? (fun r => r.slug == o.slug) with
        | none => rfl
        | some x => rw [hopt] at hf; cases hf
      exact absurd (by simp [hslug]) (List.find?_eq_none.mp hf' r hr)

theorem ensureRitual_mem_self (o : EnsureRitualOpts) (db : DB) :
    (ensureRitual o db).1 ∈ (ensureRitual o db).2.rituals := by
  unfold ensureRitual
  cases h : db.rituals.find? (fun r => r.slug == o.slug) with
  | none => simp
  | some r0 =>
      have hmem := List.mem_of_find?_eq_some h
      have hr0 : (r0.slug == o.slug) = true :=
        @List.find?_some _ (fun r => r.slug == o.slug) r0 _ h
      exact List.mem_map.mpr ⟨r0, hmem, by rw [if_pos hr0]⟩

/-! ## Store lemmas: the three map-style row updates

`deactivateActiveVersions`, `deactivateOtherVersions` and
`markVersionActive` all map a function over the version table that can
only change `isActive`. -/

/-- A row update that keeps keys and numbers keeps every ritual's number
sequence, the id column and the ritual-id column. -/
theorem map_update_columns (l : List RitualConfigVersion)
    (g : RitualConfigVersion → RitualConfigVersion)
    (hg : ∀ v, (g v).ritualId = v.ritualId ∧ (g v).versionNumber = v.versionNumber ∧
      (g v).id = v.id) (rid : Nat) :
    ((l.map g).filter (fun v => v.ritualId == rid)).map (fun v => v.versionNumber)
      = (l.filter (fun v => v.ritualId == rid)).map (fun v => v.versionNumber) ∧
    (l.map g).map (fun v => v.id) = l.map (fun v => v.id) ∧
    (l.map g).map (fun v => v.ritualId) = l.map (fun v => v.ritualId) := by
  refine ⟨?_, ?_, ?_⟩
  · rw [filter_map_comm l g _ (fun v _ => by rw [(hg v).1]),
      map_map_congr _ g _ (fun v _ => (hg v).2.1)]
  · exact map_map_congr l g _ (fun v _ => (hg v).2.2)
  · exact map_map_congr l g _ (fun v _ => (hg v).1)

theorem deactAll_keeps_columns (rid : Nat) :
    ∀ v : RitualConfigVersion,
      (((fun v => if v.ritualId == rid && v.isActive then { v with isActive := false } else v) v).ritualId = v.ritualId) ∧
      (((fun v => if v.ritualId == rid && v.isActive then { v with isActive := false } else v) v).versionNumber = v.versionNumber) ∧
      (((fun v => if v.ritualId == rid && v.isActive then { v with isActive := false } else v) v).id = v.id) := by
  intro v
  cases hc : v.ritualId == rid && v.isActive <;> simp [hc]

theorem deactOthers_keeps_columns (rid vid : Nat) :
    ∀ v : RitualConfigVersion,
      (((fun v => if v.ritualId == rid && v.id != vid then { v with isActive := false } else v) v).ritualId = v.ritualId) ∧
      (((fun v => if v.ritualId == rid && v.id != vid then { v with isActive := false } else v) v).versionNumber = v.versionNumber) ∧
      (((fun v => if v.ritualId == rid && v.id != vid then { v with isActive := false } else v) v).id = v.id) := by
  intro v
  cases hc : v.ritualId == rid && v.id != vid <;> simp [hc]

theorem markActive_keeps_columns (vid : Nat) :
    ∀ v : RitualConfigVersion,
      (((fun v => if v.id == vid then { v with isActive := true } else v) v).ritualId = v.ritualId) ∧
      (((fun v => if v.id == vid then { v with isActive := true } else v) v).versionNumber = v.versionNumber) ∧
      (((fun v => if v.id == vid then { v with isActive := true } else v) v).id = v.id) := by
  intro v
  cases hc : v.id == vid <;> simp [hc]

/-- After the deactivate-all step, the target ritual has no active
version at all. -/
theorem deactivateActiveVersions_active_self (rid : Nat) (db : DB) :
    activeVersionsOf rid (deactivateActiveVersions rid db) = [] := by
  rw [activeVersionsOf_eq]
  unfold deactivateActiveVersions
  apply filter_map_nil
  intro v _
  cases hr : v.ritualId == rid <;> cases ha : v.isActive <;> simp [hr, ha]

/-- The deactivate-all step leaves every other ritual's active set
unchanged. -/
theorem deactivateActiveVersions_active_other (rid rid2 : Nat) (db : DB)
    (h : rid2 ≠ rid) :
    activeVersionsOf rid2 (deactivateActiveVersions rid db) = activeVersionsOf rid2 db := by
  rw [activeVersionsOf_eq, activeVersionsOf_eq]
  unfold deactivateActiveVersions
  apply filter_map_eq
  intro v _
  constructor
  · cases hr : v.ritualId == rid with
    | false => simp [hr]
    | true =>
        cases ha : v.isActive with
        | false => simp [hr, ha]
        | true =>
            have hne : (v.ritualId == rid2) = false := by
              rw [eq_of_beq hr]
              exact beq_eq_false_iff_ne.mpr (Ne.symm h)
            simp [hr, ha, hne]
  · intro hp
    have h2 : v.ritualId = rid2 := eq_of_beq (by
      have := (Bool.and_eq_true _ _).mp hp
      exact this.2)
    have : (v.ritualId == rid) = false := by
      rw [h2]
      exact beq_eq_false_iff_ne.mpr h
    simp [this]

/-- The versions of a ritual after an insert. -/
theorem insertVersion_versionsOf (data : NewVersionData) (db : DB) (rid : Nat) :
    versionsOf rid (insertVersion data db).2
      = versionsOf rid db ++
        (if data.ritualId == rid then [(insertVersion data db).1] else []) := by
  unfold insertVersion versionsOf
  dsimp only
  rw [List.filter_append]
  cases hc : data.ritualId == rid <;> simp [hc]

theorem insertVersion_active (data : NewVersionData) (db : DB) (rid : Nat) :
    activeVersionsOf rid (insertVersion data db).2
      = activeVersionsOf rid db ++
        (if data.isActive && (data.ritualId == rid) then [(insertVersion data db).1] else []) := by
  rw [activeVersionsOf_eq, activeVersionsOf_eq]
  unfold insertVersion
  dsimp only
  rw [List.filter_append]
  cases ha : data.isActive <;> cases hc : data.ritualId == rid <;> simp [ha, hc]

theorem insertVersion_ids (data : NewVersionData) (db : DB) :
    (insertVersion data db).2.versions.map (fun v => v.id)
      = db.versions.map (fun v => v.id) ++ [db.nextId] := by
  unfold insertVersion
  simp

theorem insertVersion_ritualIds (data : NewVersionData) (db : DB) :
    ritualIdsOf (insertVersion data db).2 = ritualIdsOf db ++ [data.ritualId] := by
  unfold insertVersion ritualIdsOf
  simp

/-! ## Store lemmas: activation -/

/-- After deactivate-others followed by mark-active, the active versions
of the target's ritual are exactly the rows carrying the target id (made
active). -/
theorem active_after_deactOthers_mark (l : List RitualConfigVersion) (rid vid : Nat) :
    ((l.map (fun v => if v.ritualId == rid && v.id != vid then { v with isActive := false } else v)).map
        (fun v => if v.id == vid then { v with isActive := true } else v)).filter
      (fun v => v.isActive && (v.ritualId == rid))
    = (l.filter (fun v => v.id == vid && (v.ritualId == rid))).map
        (fun v => { v with isActive := true }) := by
  induction l with
  | nil => rfl
  | cons v t ih =>
      cases hid : v.id == vid with
      | true =>
          have hbne : (v.id != vid) = false := by simp only [bne, hid, Bool.not_true]
          cases hrid : v.ritualId == rid with
          | true =>
              simp only [List.map_cons, List.filter_cons, hid, hbne, hrid,
                Bool.and_false, Bool.and_true, Bool.true_and, eq_self_iff_true,
                if_true, Bool.false_eq_true, if_false, ih]
          | false =>
              simp only [List.map_cons, List.filter_cons, hid, hbne, hrid,
                Bool.and_false, Bool.and_true, Bool.true_and, Bool.and_self,
                eq_self_iff_true, if_true, Bool.false_eq_true, if_false, ih]
      | false =>
          have hbne : (v.id != vid) = true := by simp only [bne, hid, Bool.not_false]
          cases hrid : v.ritualId == rid with
          | true =>
              simp only [List.map_cons, List.filter_cons, hid, hbne, hrid,
                Bool.and_true, Bool.true_and, Bool.false_and, Bool.and_false,
                eq_self_iff_true, if_true, Bool.false_eq_true, if_false, ih]
          | false =>
              cases ha : v.isActive <;>
                simp only [List.map_cons, List.filter_cons, hid, hbne, hrid, ha,
                  Bool.and_true, Bool.true_and, Bool.false_and, Bool.and_false,
                  eq_self_iff_true, if_true, Bool.false_eq_true, if_false, ih]

/-- With pairwise-distinct ids, the row `find?` locates is the only row
carrying its id (keyed also by its ritual). -/
theorem filter_id_rid_singleton (l : List RitualConfigVersion) (vid : Nat)
    (v0 : RitualConfigVersion) (hn : (l.map (fun v => v.id)).Nodup)
    (hf : l.find? (fun v => v.id == vid) = some v0) :
    l.filter (fun v => v.id == vid && (v.ritualId == v0.ritualId)) = [v0] := by
  induction l with
  | nil => cases hf
  | cons w t ih =>
      rw [List.map_cons, List.nodup_cons] at hn
      rw [List.find?_cons] at hf
      cases hid : w.id == vid with
      | true =>
          rw [hid] at hf
          have hw : w = v0 := Option.some.inj hf
          have hvid : w.id = vid := eq_of_beq hid
          have htnil : t.filter (fun v => v.id == vid && (v.ritualId == v0.ritualId)) = [] := by
            rw [List.filter_eq_nil_iff]
            intro b hb hp
            have hbid : b.id = vid := eq_of_beq ((Bool.and_eq_true _ _).mp hp).1
            exact hn.1 (List.mem_map.mpr ⟨b, hb, by rw [hbid, hvid]⟩)
          rw [List.filter_cons]
          have hcond : (w.id == vid && (w.ritualId == v0.ritualId)) = true := by
            rw [hid, hw]
            simp
          rw [hcond, if_pos rfl, htnil, hw]
      | false =>
          rw [hid] at hf
          rw [List.filter_cons]
          have hcond : (w.id == vid && (w.ritualId == v0.ritualId)) = false := by
            rw [hid]
            rfl
          simp only [hcond, Bool.false_eq_true, if_false]
          exact ih hn.2 hf

/-- Characterization of a successful `activateRitualConfigVersion`: the
returned row is the found one made active; the target ritual's active
set collapses to exactly that row; every other ritual's active set, all
number sequences, the id column, the rituals table and the id counter
are untouched. -/
theorem activateRitualConfigVersion_spec (vid : Nat) (db : DB)
    (v : RitualConfigVersion) (db' : DB) (hn : nodupVersionIds db)
    (h : activateRitualConfigVersion vid db = .ok (v, db')) :
    activeVersionsOf v.ritualId db' = [v] ∧
    (∀ rid, rid ≠ v.ritualId → activeVersionsOf rid db' = activeVersionsOf rid db) ∧
    (∀ rid, (versionsOf rid db').map (fun w => w.versionNumber)
      = (versionsOf rid db).map (fun w => w.versionNumber)) ∧
    db'.versions.map (fun w => w.id) = db.versions.map (fun w => w.id) ∧
    ritualIdsOf db' = ritualIdsOf db ∧
    db'.rituals = db.rituals ∧ db'.nextId = db.nextId := by
  unfold activateRitualConfigVersion at h
  cases hf : findVersion vid db with
  | none => rw [hf] at h; cases h
  | some v0 =>
      rw [hf] at h
      cases h
      unfold findVersion at hf
      have hvid : v0.id = vid :=
        eq_of_beq (@List.find?_some _ (fun v => v.id == vid) v0 _ hf)
      rw [← hvid] at hf
      have hv0mem := List.mem_of_find?_eq_some hf
      have hcols2 := markActive_keeps_columns v0.id
      have hcols1 := deactOthers_keeps_columns v0.ritualId v0.id
      refine ⟨?_, ?_, ?_, ?_, ?_, rfl, rfl⟩
      · rw [activeVersionsOf_eq]
        show ((db.versions.map _).map _).filter _ = _
        rw [active_after_deactOthers_mark,
          filter_id_rid_singleton db.versions v0.id v0 hn hf]
        rfl
      · intro rid hrid
        rw [activeVersionsOf_eq, activeVersionsOf_eq]
        show ((db.versions.map _).map _).filter _ = _
        rw [filter_map_eq _ _ _ ?houter, filter_map_eq _ _ _ ?hinner]
        case houter =>
          -- mark-active only touches the row with the found id, whose
          -- ritual is v0.ritualId ≠ rid
          intro w hw
          rcases List.mem_map.mp hw with ⟨u, hu, huw⟩
          have hcu := deactOthers_keeps_columns v0.ritualId v0.id u
          cases hc : w.id == v0.id with
          | false => exact ⟨by simp [hc], fun _ => by simp [hc]⟩
          | true =>
              have hgid : w.id = u.id := by
                rw [← huw]
                exact hcu.2.2
              have huid : u.id = v0.id := by
                rw [← hgid]
                exact eq_of_beq hc
              have huv0 : u = v0 :=
                List.inj_on_of_nodup_map hn hu hv0mem huid
              have hgrid : w.ritualId = u.ritualId := by
                rw [← huw]
                exact hcu.1
              have hwrid : w.ritualId = v0.ritualId := by
                rw [hgrid, huv0]
              have hbeq : (w.ritualId == rid) = false := by
                rw [hwrid]
                exact beq_eq_false_iff_ne.mpr (Ne.symm hrid)
              constructor
              · simp [hc, hbeq]
              · intro hp
                exact absurd ((Bool.and_eq_true _ _).mp hp).2 (by simp [hbeq])
        case hinner =>
          -- deactivate-others only touches rows of ritual v0.ritualId ≠ rid
          intro u _
          constructor
          · cases hc : u.ritualId == v0.ritualId && u.id != v0.id with
            | false => simp [hc]
            | true =>
                have hur : u.ritualId = v0.ritualId :=
                  eq_of_beq ((Bool.and_eq_true _ _).mp hc).1
                have : (u.ritualId == rid) = false := by
                  rw [hur]
                  exact beq_eq_false_iff_ne.mpr (Ne.symm hrid)
                simp [hc, this]
          · intro hp
            have hur : u.ritualId = rid := eq_of_beq ((Bool.and_eq_true _ _).mp hp).2
            have : (u.ritualId == v0.ritualId) = false := by
              rw [hur]
              exact beq_eq_false_iff_ne.mpr hrid
            simp [this]
      · intro rid
        show (((db.versions.map _).map _).filter _).map _ = _
        rw [(map_update_columns _ _ hcols2 rid).1]
        exact (map_update_columns _ _ hcols1 rid).1
      · show ((db.versions.map _).map _).map _ = _
        rw [(map_update_columns _ _ hcols2 0).2.1]
        exact (map_update_columns _ _ hcols1 0).2.1
      · show ((db.versions.map _).map _).map _ = _
        rw [(map_update_columns _ _ hcols2 0).2.2]
        exact (map_update_columns _ _ hcols1 0).2.2

/-! ## Store lemmas: creation -/

theorem versionsOf_congr (rid : Nat) (d1 d2 : DB) (h : d1.versions = d2.versions) :
    versionsOf rid d1 = versionsOf rid d2 := by
  unfold versionsOf
  rw [h]

theorem activeVersionsOf_congr (rid : Nat) (d1 d2 : DB) (h : d1.versions = d2.versions) :
    activeVersionsOf rid d1 = activeVersionsOf rid d2 := by
  unfold activeVersionsOf
  rw [versionsOf_congr rid d1 d2 h]

theorem maxVersionNumber_congr (rid : Nat) (d1 d2 : DB) (h : d1.versions = d2.versions) :
    maxVersionNumber rid d1 = maxVersionNumber rid d2 := by
  unfold maxVersionNumber
  rw [versionsOf_congr rid d1 d2 h]

theorem ritualIdsOf_congr (d1 d2 : DB) (h : d1.versions = d2.versions) :
    ritualIdsOf d1 = ritualIdsOf d2 := by
  unfold ritualIdsOf
  rw [h]

theorem deact_numbers (rid rid2 : Nat) (db : DB) :
    (versionsOf rid2 (deactivateActiveVersions rid db)).map (fun w => w.versionNumber)
      = (versionsOf rid2 db).map (fun w => w.versionNumber) :=
  (map_update_columns db.versions _ (deactAll_keeps_columns rid) rid2).1

theorem deact_ids (rid : Nat) (db : DB) :
    (deactivateActiveVersions rid db).versions.map (fun w => w.id)
      = db.versions.map (fun w => w.id) :=
  (map_update_columns db.versions _ (deactAll_keeps_columns rid) 0).2.1

theorem deact_ritualIds (rid : Nat) (db : DB) :
    ritualIdsOf (deactivateActiveVersions rid db) = ritualIdsOf db :=
  (map_update_columns db.versions _ (deactAll_keeps_columns rid) 0).2.2

/-- `createRitualConfigVersion` unfolded to its four store steps. -/
theorem createRitualConfigVersion_eq (opts : CreateVersionOpts) (db : DB) :
    createRitualConfigVersion opts db =
      insertVersion
        ⟨(ensureRitual ⟨opts.ritualSlug, opts.ritualName, opts.ritualDescription⟩ db).1.id,
         maxVersionNumber
           (ensureRitual ⟨opts.ritualSlug, opts.ritualName, opts.ritualDescription⟩ db).1.id
           (ensureRitual ⟨opts.ritualSlug, opts.ritualName, opts.ritualDescription⟩ db).2 + 1,
         opts.makeActive, opts.label, opts.notes, opts.config, opts.createdBy⟩
        (if opts.makeActive then
           deactivateActiveVersions
             (ensureRitual ⟨opts.ritualSlug, opts.ritualName, opts.ritualDescription⟩ db).1.id
             (ensureRitual ⟨opts.ritualSlug, opts.ritualName, opts.ritualDescription⟩ db).2
         else (ensureRitual ⟨opts.ritualSlug, opts.ritualName, opts.ritualDescription⟩ db).2) := rfl

/-- Characterization of `createRitualConfigVersion` over a store with
counter-drawn ids: the new row's number is the per-ritual max plus one;
number sequences extend by exactly that number for the target ritual;
with `makeActive` the target's active set becomes exactly the new row
and other rituals are untouched; without it no active set changes; the
id column gains one fresh id; id bounds, slug uniqueness and the
ritual-id column evolve accordingly. -/
theorem createRitualConfigVersion_spec (opts : CreateVersionOpts) (db : DB)
    (hb : boundedIds db) :
    (createRitualConfigVersion opts db).1.versionNumber
      = maxVersionNumber (createRitualConfigVersion opts db).1.ritualId db + 1 ∧
    (createRitualConfigVersion opts db).1.isActive = opts.makeActive ∧
    (∀ rid, (versionsOf rid (createRitualConfigVersion opts db).2).map (fun w => w.versionNumber)
      = (versionsOf rid db).map (fun w => w.versionNumber) ++
        (if (createRitualConfigVersion opts db).1.ritualId == rid
         then [(createRitualConfigVersion opts db).1.versionNumber] else [])) ∧
    (opts.makeActive = true →
      activeVersionsOf (createRitualConfigVersion opts db).1.ritualId
        (createRitualConfigVersion opts db).2 = [(createRitualConfigVersion opts db).1]) ∧
    (∀ rid, rid ≠ (createRitualConfigVersion opts db).1.ritualId →
      activeVersionsOf rid (createRitualConfigVersion opts db).2 = activeVersionsOf rid db) ∧
    (opts.makeActive = false →
      ∀ rid, activeVersionsOf rid (createRitualConfigVersion opts db).2 = activeVersionsOf rid db) ∧
    ((createRitualConfigVersion opts db).2.versions.map (fun w => w.id)
      = db.versions.map (fun w => w.id) ++ [(createRitualConfigVersion opts db).1.id]) ∧
    (∀ w ∈ db.versions, w.id ≠ (createRitualConfigVersion opts db).1.id) ∧
    boundedIds (createRitualConfigVersion opts db).2 ∧
    (nodupSlugs db → nodupSlugs (createRitualConfigVersion opts db).2) ∧
    (ritualIdsOf (createRitualConfigVersion opts db).2
      = ritualIdsOf db ++ [(createRitualConfigVersion opts db).1.ritualId]) ∧
    (createRitualConfigVersion opts db).1.configJson = opts.config ∧
    (createRitualConfigVersion opts db).1.label = opts.label ∧
    (createRitualConfigVersion opts db).1.ritualId
      = (ensureRitual ⟨opts.ritualSlug, opts.ritualName, opts.ritualDescription⟩ db).1.id := by
  obtain ⟨hrb, hvb⟩ := hb
  have hver := ensureRitual_versions ⟨opts.ritualSlug, opts.ritualName, opts.ritualDescription⟩ db
  have hnle := ensureRitual_nextId_le ⟨opts.ritualSlug, opts.ritualName, opts.ritualDescription⟩ db
  have hidlt := ensureRitual_id_lt ⟨opts.ritualSlug, opts.ritualName, opts.ritualDescription⟩ db hrb
  have hrbnd := ensureRitual_rituals_bound ⟨opts.ritualSlug, opts.ritualName, opts.ritualDescription⟩ db hrb
  have hslug := ensureRitual_nodupSlugs ⟨opts.ritualSlug, opts.ritualName, opts.ritualDescription⟩ db
  rw [createRitualConfigVersion_eq opts db]
  set E := ensureRitual ⟨opts.ritualSlug, opts.ritualName, opts.ritualDescription⟩ db with hE
  set D := if opts.makeActive then deactivateActiveVersions E.1.id E.2 else E.2 with hD
  have hDver : ∀ rid, (versionsOf rid D).map (fun w => w.versionNumber)
      = (versionsOf rid db).map (fun w => w.versionNumber) := by
    intro rid
    rw [hD]
    cases hma : opts.makeActive with
    | true =>
        rw [if_pos rfl, deact_numbers]
        rw [versionsOf_congr rid E.2 db hver]
    | false =>
        rw [if_neg (by simp)]
        rw [versionsOf_congr rid E.2 db hver]
  have hDids : D.versions.map (fun w => w.id) = db.versions.map (fun w => w.id) := by
    rw [hD]
    cases hma : opts.makeActive with
    | true => rw [if_pos rfl, deact_ids, hver]
    | false => rw [if_neg (by simp), hver]
  have hDrids : ritualIdsOf D = ritualIdsOf db := by
    rw [hD]
    cases hma : opts.makeActive with
    | true => rw [if_pos rfl, deact_ritualIds, ritualIdsOf_congr E.2 db hver]
    | false => rw [if_neg (by simp), ritualIdsOf_congr E.2 db hver]
  have hDnext : D.nextId = E.2.nextId := by
    rw [hD]
    cases hma : opts.makeActive with
    | true => rw [if_pos rfl]; rfl
    | false => rw [if_neg (by simp)]
  have hDrit : D.rituals = E.2.rituals := by
    rw [hD]
    cases hma : opts.makeActive with
    | true => rw [if_pos rfl]; rfl
    | false => rw [if_neg (by simp)]
  have hDactother : ∀ rid, rid ≠ E.1.id → activeVersionsOf rid D = activeVersionsOf rid db := by
    intro rid hrid
    rw [hD]
    cases hma : opts.makeActive with
    | true =>
        rw [if_pos rfl, deactivateActiveVersions_active_other E.1.id rid E.2 hrid,
          activeVersionsOf_congr rid E.2 db hver]
    | false =>
        rw [if_neg (by simp), activeVersionsOf_congr rid E.2 db hver]
  refine ⟨?_, rfl, ?_, ?_, ?_, ?_, ?_, ?_, ?_, ?_, ?_, rfl, rfl, rfl⟩
  · show maxVersionNumber E.1.id E.2 + 1 = maxVersionNumber E.1.id db + 1
    rw [maxVersionNumber_congr E.1.id E.2 db hver]
  · intro rid
    rw [insertVersion_versionsOf, List.map_append, hDver rid]
    show _ = _ ++ (if E.1.id == rid then _ else _)
    cases hc : E.1.id == rid with
    | true => simp [hc]
    | false => simp [hc]
  · intro hma
    show activeVersionsOf E.1.id _ = _
    rw [insertVersion_active]
    have : activeVersionsOf E.1.id D = [] := by
      rw [hD, if_pos hma]
      exact deactivateActiveVersions_active_self E.1.id E.2
    rw [this]
    simp [hma]
  · intro rid hrid
    have hrid' : rid ≠ E.1.id := hrid
    rw [insertVersion_active]
    have hc : (E.1.id == rid) = false := beq_eq_false_iff_ne.mpr (Ne.symm hrid')
    rw [hDactother rid hrid']
    simp [hc]
  · intro hma rid
    rw [insertVersion_active]
    have hDact : activeVersionsOf rid D = activeVersionsOf rid db := by
      rw [hD, if_neg (by simp [hma]), activeVersionsOf_congr rid E.2 db hver]
    rw [hDact]
    simp [hma]
  · rw [insertVersion_ids, hDids]
    rfl
  · intro w hw
    show w.id ≠ D.nextId
    have h1 : w.id < db.nextId := (hvb w hw).1
    have h2 : db.nextId ≤ D.nextId := by rw [hDnext]; exact hnle
    omega
  · constructor
    · show ∀ r ∈ D.rituals, r.id < D.nextId + 1
      intro r hr
      rw [hDrit] at hr
      have := hrbnd r hr
      have h2 : E.2.nextId = D.nextId := by rw [hDnext]
      omega
    · show ∀ v ∈ D.versions ++ [_], v.id < D.nextId + 1 ∧ v.ritualId < D.nextId + 1
      intro v hv
      rcases List.mem_append.mp hv with hv | hv
      · have hvid : v.id ∈ D.versions.map (fun w => w.id) := List.mem_map.mpr ⟨v, hv, rfl⟩
        rw [hDids] at hvid
        rcases List.mem_map.mp hvid with ⟨u, hu, huid⟩
        have hvrid : v.ritualId ∈ ritualIdsOf D := List.mem_map.mpr ⟨v, hv, rfl⟩
        rw [hDrids] at hvrid
        rcases List.mem_map.mp hvrid with ⟨u2, hu2, hurid⟩
        have hb1 := (hvb u hu).1
        have hb2 := (hvb u2 hu2).2
        have h2 : db.nextId ≤ D.nextId := by rw [hDnext]; exact hnle
        omega
      · rcases List.mem_singleton.mp hv with rfl
        constructor
        · show D.nextId < D.nextId + 1
          omega
        · show E.1.id < D.nextId + 1
          have h2 : E.2.nextId = D.nextId := by rw [hDnext]
          omega
  · intro h
    show nodupSlugs { rituals := D.rituals, versions := _, nextId := _ }
    unfold nodupSlugs
    show (D.rituals.map (fun r => r.slug)).Nodup
    rw [hDrit]
    exact hslug h
  · rw [insertVersion_ritualIds, hDrids]
    rfl

/-! ## Store lemmas: the sequential invariant -/

theorem activeVersionsOf_nil_of_not_mem (rid : Nat) (db : DB)
    (h : rid ∉ ritualIdsOf db) : activeVersionsOf rid db = [] := by
  unfold activeVersionsOf
  rw [versionsOf_eq_nil_of_not_mem rid db h]
  rfl

theorem invariant_create (opts : CreateVersionOpts) (db : DB) (h : Invariant db) :
    Invariant (createRitualConfigVersion opts db).2 := by
  obtain ⟨hb, hnid, hns, hnum, hone⟩ := h
  obtain ⟨c1, c2, c3, c4, c5, c6, c7, c8, c9, c10, c11, c12, c13, c14⟩ :=
    createRitualConfigVersion_spec opts db hb
  refine ⟨c9, ?_, c10 hns, ?_, ?_⟩
  · unfold nodupVersionIds at hnid ⊢
    rw [c7, List.nodup_append]
    refine ⟨hnid, List.nodup_singleton _, ?_⟩
    intro a ha hb'
    rcases List.mem_singleton.mp hb' with rfl
    rcases List.mem_map.mp ha with ⟨w, hw, hwid⟩
    exact c8 w hw hwid
  · intro rid _
    have hc3 := c3 rid
    cases hc : (createRitualConfigVersion opts db).1.ritualId == rid with
    | false =>
        rw [hc] at hc3
        simp only [Bool.false_eq_true, if_false, List.append_nil] at hc3
        have hlen : (versionsOf rid (createRitualConfigVersion opts db).2).length
            = (versionsOf rid db).length := by
          have := congrArg List.length hc3
          simpa using this
        rw [hc3, hlen]
        exact numbersSeq_all db hnum rid
    | true =>
        have hridq : (createRitualConfigVersion opts db).1.ritualId = rid := eq_of_beq hc
        rw [hc] at hc3
        simp only [if_true] at hc3
        have hold := numbersSeq_all db hnum rid
        have hmax : maxVersionNumber rid db = (versionsOf rid db).length :=
          maxVersionNumber_of_seq rid db hold
        have hnumv : (createRitualConfigVersion opts db).1.versionNumber
            = (versionsOf rid db).length + 1 := by
          rw [c1, hridq, hmax]
        have hlen : (versionsOf rid (createRitualConfigVersion opts db).2).length
            = (versionsOf rid db).length + 1 := by
          have := congrArg List.length hc3
          simpa using this
        rw [hc3, hold, hnumv, hlen, List.range'_concat]
        congr 1
        · congr 1
          omega
  · intro rid hmem
    rw [c11] at hmem
    rcases List.mem_append.mp hmem with hmem | hmem
    · by_cases heq : rid = (createRitualConfigVersion opts db).1.ritualId
      · cases hma : opts.makeActive with
        | true =>
            rw [heq, c4 hma]
            exact Nat.le_refl 1
        | false =>
            rw [c6 hma rid]
            exact hone rid hmem
      · rw [c5 rid heq]
        exact hone rid hmem
    · rcases List.mem_singleton.mp hmem with rfl
      cases hma : opts.makeActive with
      | true =>
          rw [c4 hma]
          exact Nat.le_refl 1
      | false =>
          rw [c6 hma]
          by_cases hmem' : (createRitualConfigVersion opts db).1.ritualId ∈ ritualIdsOf db
          · exact hone _ hmem'
          · rw [activeVersionsOf_nil_of_not_mem _ db hmem']
            exact Nat.zero_le 1

theorem invariant_activate_ok (vid : Nat) (db : DB) (v : RitualConfigVersion) (db' : DB)
    (h : Invariant db) (hres : activateRitualConfigVersion vid db = .ok (v, db')) :
    Invariant db' := by
  obtain ⟨hb, hnid, hns, hnum, hone⟩ := h
  obtain ⟨a1, a2, a3, a4, a5, a6, a7⟩ :=
    activateRitualConfigVersion_spec vid db v db' hnid hres
  refine ⟨⟨?_, ?_⟩, ?_, ?_, ?_, ?_⟩
  · intro r hr
    rw [a6] at hr
    rw [a7]
    exact hb.1 r hr
  · intro w hw
    rw [a7]
    have hwid : w.id ∈ db'.versions.map (fun u => u.id) := List.mem_map.mpr ⟨w, hw, rfl⟩
    have hwrid : w.ritualId ∈ ritualIdsOf db' := List.mem_map.mpr ⟨w, hw, rfl⟩
    rw [a4] at hwid
    rw [a5] at hwrid
    rcases List.mem_map.mp hwid with ⟨u, hu, huid⟩
    rcases List.mem_map.mp hwrid with ⟨u2, hu2, hurid⟩
    rw [← huid, ← hurid]
    exact ⟨(hb.2 u hu).1, (hb.2 u2 hu2).2⟩
  · unfold nodupVersionIds at hnid ⊢
    rw [a4]
    exact hnid
  · unfold nodupSlugs at hns ⊢
    rw [a6]
    exact hns
  · intro rid _
    have ha3 := a3 rid
    have hlen : (versionsOf rid db').length = (versionsOf rid db).length := by
      have := congrArg List.length ha3
      simpa using this
    rw [ha3, hlen]
    exact numbersSeq_all db hnum rid
  · intro rid hmem
    rw [a5] at hmem
    by_cases heq : rid = v.ritualId
    · rw [heq, a1]
      exact Nat.le_refl 1
    · rw [a2 rid heq]
      exact hone rid hmem

theorem invariant_applyOp (op : StoreOp) (db : DB) (h : Invariant db) :
    Invariant (applyOp op db) := by
  cases op with
  | create opts => exact invariant_create opts db h
  | activate vid =>
      unfold applyOp
      cases hres : activateRitualConfigVersion vid db with
      | error e => simp only [hres]; exact h
      | ok p =>
          simp only [hres]
          exact invariant_activate_ok vid db p.1 p.2 h (by rw [hres])
  | dup dopts =>
      unfold applyOp
      cases hres : duplicateRitualConfigVersion dopts db with
      | error e => simp only [hres]; exact h
      | ok p =>
          simp only [hres]
          unfold duplicateRitualConfigVersion at hres
          cases hfv : findVersion dopts.sourceVersionId db with
          | none => simp only [hfv] at hres; cases hres
          | some src =>
              simp only [hfv] at hres
              cases hfr : findRitualById src.ritualId db with
              | none => simp only [hfr] at hres; cases hres
              | some rit =>
                  simp only [hfr] at hres
                  have hp : p = createRitualConfigVersion
                      { ritualSlug := rit.slug, ritualName := rit.name
                        ritualDescription := rit.description
                        config := src.configJson
                        label := some (dopts.label.getD ("Copy of v" ++ toString src.versionNumber))
                        notes := dopts.notes, createdBy := dopts.createdBy
                        makeActive := dopts.makeActive } db :=
                    (Except.ok.inj hres).symm
                  rw [hp]
                  exact invariant_create _ db h

theorem invariant_empty : Invariant DB.empty := by
  refine ⟨⟨?_, ?_⟩, ?_, ?_, ?_, ?_⟩ <;>
    simp [DB.empty, nodupVersionIds, nodupSlugs, numbersSeq, atMostOneActive, ritualIdsOf]

theorem invariant_foldl (ops : List StoreOp) :
    ∀ db : DB, Invariant db → Invariant (ops.foldl (fun db op => applyOp op db) db) := by
  induction ops with
  | nil => intro db h; exact h
  | cons op rest ih =>
      intro db h
      exact ih (applyOp op db) (invariant_applyOp op db h)

/-- Every store reachable by a sequence of completed operations
satisfies the sequential invariant. -/
theorem invariant_runOps (ops : List StoreOp) : Invariant (runOps ops) :=
  invariant_foldl ops DB.empty invariant_empty

/-- With pairwise-distinct slugs, `find?` by a member's slug returns
that member. -/
theorem find?_slug_self (l : List Ritual) (r : Ritual)
    (hn : (l.map (fun q => q.slug)).Nodup) (hm : r ∈ l) :
    l.find? (fun q => q.slug == r.slug) = some r := by
  induction l with
  | nil => cases hm
  | cons a t ih =>
      rw [List.map_cons, List.nodup_cons] at hn
      rcases List.mem_cons.mp hm with rfl | hm'
      · rw [List.find?_cons]
        simp
      · have hne : (a.slug == r.slug) = false := by
          refine beq_eq_false_iff_ne.mpr ?_
          intro hEq
          exact hn.1 (List.mem_map.mpr ⟨r, hm', hEq.symm⟩)
        rw [List.find?_cons, hne]
        exact ih hn.2 hm'

/-! ## Claim C2 — one active version under sequential use (amended) -/

/-- **C2** (amended): along every sequence of completed sequential store
operations, every ritual has **at most one** active version; and a
completed `createVersion(makeActive=true)`, a successful
`activateVersion`, or a successful `duplicateVersion(makeActive=true)`
leaves its target ritual with **exactly one** active version (the new or
activated row).  The at-least-one half of the original claim fails:
`createVersion(makeActive=false)` preserves the active set, so a ritual
whose rows were all created inactive has rows but no active one. -/
theorem c2_amended (ops : List StoreOp) :
    (∀ rid ∈ ritualIdsOf (runOps ops), (activeVersionsOf rid (runOps ops)).length ≤ 1) ∧
    (∀ opts : CreateVersionOpts, opts.makeActive = true →
      activeVersionsOf (createRitualConfigVersion opts (runOps ops)).1.ritualId
        (createRitualConfigVersion opts (runOps ops)).2
        = [(createRitualConfigVersion opts (runOps ops)).1]) ∧
    (∀ (vid : Nat) (v : RitualConfigVersion) (db' : DB),
      activateRitualConfigVersion vid (runOps ops) = .ok (v, db') →
      activeVersionsOf v.ritualId db' = [v]) ∧
    (∀ (dopts : DuplicateVersionOpts) (v : RitualConfigVersion) (db' : DB),
      dopts.makeActive = true →
      duplicateRitualConfigVersion dopts (runOps ops) = .ok (v, db') →
      activeVersionsOf v.ritualId db' = [v]) := by
  have hInv := invariant_runOps ops
  refine ⟨hInv.2.2.2.2, ?_, ?_, ?_⟩
  · intro opts hma
    exact (createRitualConfigVersion_spec opts (runOps ops) hInv.1).2.2.2.1 hma
  · intro vid v db' hres
    exact (activateRitualConfigVersion_spec vid (runOps ops) v db' hInv.2.1 hres).1
  · intro dopts v db' hma hres
    unfold duplicateRitualConfigVersion at hres
    cases hfv : findVersion dopts.sourceVersionId (runOps ops) with
    | none => simp only [hfv] at hres; cases hres
    | some src =>
        simp only [hfv] at hres
        cases hfr : findRitualById src.ritualId (runOps ops) with
        | none => simp only [hfr] at hres; cases hres
        | some rit =>
            simp only [hfr] at hres
            have hp := Except.ok.inj hres
            have hv : v = (createRitualConfigVersion
                { ritualSlug := rit.slug, ritualName := rit.name
                  ritualDescription := rit.description
                  config := src.configJson
                  label := some (dopts.label.getD ("Copy of v" ++ toString src.versionNumber))
                  notes := dopts.notes, createdBy := dopts.createdBy
                  makeActive := dopts.makeActive } (runOps ops)).1 := by
              rw [hp]
            have hdb : db' = (createRitualConfigVersion
                { ritualSlug := rit.slug, ritualName := rit.name
                  ritualDescription := rit.description
                  config := src.configJson
                  label := some (dopts.label.getD ("Copy of v" ++ toString src.versionNumber))
                  notes := dopts.notes, createdBy := dopts.createdBy
                  makeActive := dopts.makeActive } (runOps ops)).2 := by
              rw [hp]
            rw [hv, hdb]
            exact (createRitualConfigVersion_spec _ (runOps ops) hInv.1).2.2.2.1 hma

/-- Witness for C2 (amended) on the store left by two sequential
`createVersion(makeActive=true)` calls. -/
theorem c2_witness :
    ((activeVersionsOf 0 twoVersionDB).length ≤ 1) ∧
    (activeVersionsOf
        (createRitualConfigVersion (sampleCreateOpts true) twoVersionDB).1.ritualId
        (createRitualConfigVersion (sampleCreateOpts true) twoVersionDB).2
      = [(createRitualConfigVersion (sampleCreateOpts true) twoVersionDB).1]) ∧
    (∃ v db', activateRitualConfigVersion 1 twoVersionDB = .ok (v, db') ∧
      activeVersionsOf v.ritualId db' = [v]) ∧
    (∃ v db', duplicateRitualConfigVersion ⟨1, none, none, none, true⟩ twoVersionDB = .ok (v, db') ∧
      activeVersionsOf v.ritualId db' = [v]) := by
  have h := c2_amended [.create (sampleCreateOpts true), .create (sampleCreateOpts true)]
  refine ⟨h.1 0 (by decide), h.2.1 (sampleCreateOpts true) rfl, ?_, ?_⟩
  · exact ⟨_, _, rfl, h.2.2.1 1 _ _ rfl⟩
  · exact ⟨_, _, rfl, h.2.2.2 ⟨1, none, none, none, true⟩ _ _ rfl rfl⟩

/-! ## Claim C7 — version numbering -/

/-- **C7**: on every reachable store, `createVersion` assigns the new
row `versionNumber = (max existing versionNumber for that ritual, or 0
when none) + 1`; consequently, along any sequence of sequential
operations every ritual's version numbers, in insertion order, are
exactly `1, 2, 3, …` — strictly increasing and gapless from 1, with the
first version numbered 1. -/
theorem c7_version_numbering (opts : CreateVersionOpts) (ops : List StoreOp) (rid : Nat) :
    (createRitualConfigVersion opts (runOps ops)).1.versionNumber
      = maxVersionNumber (createRitualConfigVersion opts (runOps ops)).1.ritualId (runOps ops) + 1 ∧
    (versionsOf rid (runOps ops)).map (fun v => v.versionNumber)
      = List.range' 1 (versionsOf rid (runOps ops)).length := by
  have hInv := invariant_runOps ops
  exact ⟨(createRitualConfigVersion_spec opts (runOps ops) hInv.1).1,
    numbersSeq_all (runOps ops) hInv.2.2.2.1 rid⟩

/-! ## Claim C8 — duplication -/

/-- **C8**: on every reachable store, `duplicateVersion` fails with a
`NotFound` error — writing nothing — when the source version or its
owning ritual cannot be resolved; otherwise it creates a fresh version
whose `configJson` equals the source's, owned by the same ritual, with
an id different from every existing row's and the next incremented
`versionNumber` for that ritual, and with `label` defaulting to
`"Copy of v<sourceVersionNumber>"` when none is supplied. -/
theorem c8_duplicate (ops : List StoreOp) (dopts : DuplicateVersionOpts)
    (src : RitualConfigVersion) (rit : Ritual) :
    ((findVersion dopts.sourceVersionId (runOps ops) = none ∨
      (findVersion dopts.sourceVersionId (runOps ops) = some src ∧
       findRitualById src.ritualId (runOps ops) = none)) →
      (∃ e, duplicateRitualConfigVersion dopts (runOps ops) = .error e) ∧
      applyOp (.dup dopts) (runOps ops) = runOps ops) ∧
    (findVersion dopts.sourceVersionId (runOps ops) = some src →
     findRitualById src.ritualId (runOps ops) = some rit →
      ∃ v db', duplicateRitualConfigVersion dopts (runOps ops) = .ok (v, db') ∧
        v.configJson = src.configJson ∧
        v.ritualId = src.ritualId ∧
        v.versionNumber = maxVersionNumber src.ritualId (runOps ops) + 1 ∧
        (∀ w ∈ (runOps ops).versions, w.id ≠ v.id) ∧
        (dopts.label = none →
          v.label = some ("Copy of v" ++ toString src.versionNumber))) := by
  have hInv := invariant_runOps ops
  constructor
  · intro hmiss
    have herr : ∃ e, duplicateRitualConfigVersion dopts (runOps ops) = .error e := by
      unfold duplicateRitualConfigVersion
      rcases hmiss with hfv | ⟨hfv, hfr⟩
      · rw [hfv]
        exact ⟨_, rfl⟩
      · simp only [hfv, hfr]
        exact ⟨_, rfl⟩
    refine ⟨herr, ?_⟩
    obtain ⟨e, he⟩ := herr
    unfold applyOp
    simp only [he]
  · intro hfv hfr
    have hfr' : (runOps ops).rituals.find? (fun r => r.id == src.ritualId) = some rit := hfr
    have hrit_id : rit.id = src.ritualId :=
      eq_of_beq (@List.find?_some _ (fun r => r.id == src.ritualId) rit _ hfr')
    have hrit_mem : rit ∈ (runOps ops).rituals := List.mem_of_find?_eq_some hfr'
    have hok : duplicateRitualConfigVersion dopts (runOps ops) = .ok
        (createRitualConfigVersion
          { ritualSlug := rit.slug, ritualName := rit.name
            ritualDescription := rit.description
            config := src.configJson
            label := some (dopts.label.getD ("Copy of v" ++ toString src.versionNumber))
            notes := dopts.notes, createdBy := dopts.createdBy
            makeActive := dopts.makeActive } (runOps ops)) := by
      simp only [duplicateRitualConfigVersion, hfv, hfr]
    obtain ⟨c1, c2, c3, c4, c5, c6, c7, c8, c9, c10, c11, c12, c13, c14⟩ :=
      createRitualConfigVersion_spec
        { ritualSlug := rit.slug, ritualName := rit.name
          ritualDescription := rit.description
          config := src.configJson
          label := some (dopts.label.getD ("Copy of v" ++ toString src.versionNumber))
          notes := dopts.notes, createdBy := dopts.createdBy
          makeActive := dopts.makeActive } (runOps ops) hInv.1
    have hensure : (ensureRitual ⟨rit.slug, rit.name, rit.description⟩ (runOps ops)).1.id
        = rit.id := by
      unfold ensureRitual
      rw [find?_slug_self (runOps ops).rituals rit hInv.2.2.1 hrit_mem]
    have hvr : (createRitualConfigVersion
        { ritualSlug := rit.slug, ritualName := rit.name
          ritualDescription := rit.description
          config := src.configJson
          label := some (dopts.label.getD ("Copy of v" ++ toString src.versionNumber))
          notes := dopts.notes, createdBy := dopts.createdBy
          makeActive := dopts.makeActive } (runOps ops)).1.ritualId = src.ritualId := by
      rw [c14]
      rw [hensure, hrit_id]
    refine ⟨(createRitualConfigVersion
        { ritualSlug := rit.slug, ritualName := rit.name
          ritualDescription := rit.description
          config := src.configJson
          label := some (dopts.label.getD ("Copy of v" ++ toString src.versionNumber))
          notes := dopts.notes, createdBy := dopts.createdBy
          makeActive := dopts.makeActive } (runOps ops)).1,
      (createRitualConfigVersion
        { ritualSlug := rit.slug, ritualName := rit.name
          ritualDescription := rit.description
          config := src.configJson
          label := some (dopts.label.getD ("Copy of v" ++ toString src.versionNumber))
          notes := dopts.notes, createdBy := dopts.createdBy
          makeActive := dopts.makeActive } (runOps ops)).2,
      hok, c12, hvr, ?_, ?_, ?_⟩
    · rw [c1, hvr]
    · intro w hw
      exact c8 w hw
    · intro hnone
      rw [c13, hnone]
      rfl

/-- Witness for C8: duplicating version 1 of the sample store (ok path)
and a missing version id 99 (error path). -/
theorem c8_witness :
    ((∃ e, duplicateRitualConfigVersion ⟨99, none, none, none, true⟩ twoVersionDB = .error e) ∧
      applyOp (.dup ⟨99, none, none, none, true⟩) twoVersionDB = twoVersionDB) ∧
    (∃ v db', duplicateRitualConfigVersion ⟨1, none, none, none, true⟩ twoVersionDB = .ok (v, db') ∧
      ∃ src, findVersion 1 twoVersionDB = some src ∧
        v.configJson = src.configJson ∧
        v.ritualId = src.ritualId ∧
        v.versionNumber = maxVersionNumber src.ritualId twoVersionDB + 1 ∧
        v.label = some ("Copy of v" ++ toString src.versionNumber)) := by
  constructor
  · exact (c8_duplicate [.create (sampleCreateOpts true), .create (sampleCreateOpts true)]
      ⟨99, none, none, none, true⟩
      ⟨0, 0, 0, false, none, none, Json.null, none⟩ ⟨0, "", "", none⟩).1 (Or.inl rfl)
  · obtain ⟨v, db', hok, hcfg, hrid, hnum, _, hlbl⟩ :=
      (c8_duplicate [.create (sampleCreateOpts true), .create (sampleCreateOpts true)]
        ⟨1, none, none, none, true⟩
        ⟨1, 0, 1, false, none, none,
          Json.obj [("brandVoice", Json.obj [("tone", Json.str "calm")])], none⟩
        ⟨0, "ps1_foundation", "Presence Shift", none⟩).2 rfl rfl
    exact ⟨v, db', hok,
      ⟨1, 0, 1, false, none, none,
        Json.obj [("brandVoice", Json.obj [("tone", Json.str "calm")])], none⟩,
      rfl, hcfg, hrid, hnum, hlbl rfl⟩

end PresenceShift
